import Mathlib

/-!
The hyperthread subcontroller (`iokernel/ias_ht.c`)

A shallow embedding of `ias_ht_poll_one`, `is_bad_pairing`,
`ias_ht_detect_bad_pairing` and `ias_ht_poll`, followed by theorems about them.

Modelling conventions.

* A `struct ias_data *` is an address (`Nat`); the records live in
  `IasState.heap`.  `NULL` is `Option.none`.  Two cores may hold the same
  address (one process running on both hyperthreads).
* `uint64_t` values are `Nat`; the two unsigned subtractions of the sampler
  wrap modulo `2 ^ 64` (`u64_sub`).
* `float` and `double` values are rationals.  The arithmetic of the sampler
  is rounded as the code rounds it: every conversion `(float) x` and every
  single-precision `+`, `-`, `/` rounds to the nearest value with a 24-bit
  significand, ties to even (`f32`); the product that gives the smoothing
  weight is a `double` product (`d64`, 53 bits).  Comparisons are exact.
  The exponent range is not bounded: overflow and subnormal values do not
  arise from 64-bit counters and a positive `int` calibration constant.
* The `double` arithmetic of `is_bad_pairing` (one division, one
  subtraction from 1) is not rounded.  Its division, whose divisor can be
  zero at run time, has the IEEE-754 outcome (`FVal`): a positive number
  divided by zero is `+inf`, which is not `<=` any finite threshold.
* `rdtsc()` and the per-thread counter snapshot are inputs.
* The placement search `ias_discover_better_pairing` is an external
  collaborator; a call to it is recorded as a `Request` in an output log.
-/

namespace IasHt

/-- Result of a floating-point division: a finite value, an infinity or NaN. -/
inductive FVal where
  | fin (q : ℚ)
  | pinf
  | ninf
  | nan
  deriving DecidableEq

namespace FVal

/-- IEEE-754 division of two finite values (rounding aside). -/
def div (a b : ℚ) : FVal :=
  if b = 0 then
    if 0 < a then pinf else if a < 0 then ninf else nan
  else fin (a / b)

/-- IEEE-754 comparison `x <= t` against a finite `t`; false on NaN. -/
def le (x : FVal) (t : ℚ) : Bool :=
  match x with
  | fin q => decide (q ≤ t)
  | pinf => false
  | ninf => true
  | nan => false

/-- IEEE-754 comparison `x >= t` against a finite `t`; false on NaN. -/
def ge (x : FVal) (t : ℚ) : Bool :=
  match x with
  | fin q => decide (t ≤ q)
  | pinf => true
  | ninf => false
  | nan => false

/-- IEEE-754 comparison `x > t` against a finite `t`; false on NaN. -/
def gt (x : FVal) (t : ℚ) : Bool :=
  match x with
  | fin q => decide (t < q)
  | pinf => true
  | ninf => false
  | nan => false

end FVal

/-- Modelled from the spec: the `MAX` macro of `base/stddef.h`, which is not
among the sources; the larger of its two arguments. -/
def MAX (a b : ℚ) : ℚ := if a > b then a else b

/-- Modelled from the spec: the `MIN` macro of `base/stddef.h`, which is not
among the sources; the smaller of its two arguments. -/
def MIN (a b : ℚ) : ℚ := if a < b then a else b

/-- The warm-up floor in microseconds (`#define WARMUP_US 10`). -/
def WARMUP_US : ℚ := 10

/-- Unsigned 64-bit subtraction `a - b`. -/
def u64_sub (a b : Nat) : Nat := (a % 2 ^ 64 + 2 ^ 64 - b % 2 ^ 64) % 2 ^ 64

/-- Round to the nearest integer, ties to the even one. -/
def rne (q : ℚ) : ℤ :=
  if q - ⌊q⌋ < 1 / 2 then ⌊q⌋
  else if 1 / 2 < q - ⌊q⌋ then ⌊q⌋ + 1
  else if ⌊q⌋ % 2 = 0 then ⌊q⌋ else ⌊q⌋ + 1

/-- IEEE-754 round-to-nearest-even to a `p`-bit significand, exponent range
unbounded: `x` is scaled by the power of two that puts it in
`[2 ^ (p - 1), 2 ^ p)`, rounded to an integer, and scaled back. -/
def round_to (p : Nat) (x : ℚ) : ℚ :=
  if x = 0 then 0
  else
    (rne (x / (2 : ℚ) ^ (Int.log 2 |x| - ((p : ℤ) - 1))) : ℚ) *
      (2 : ℚ) ^ (Int.log 2 |x| - ((p : ℤ) - 1))

/-- Rounding to `float` (single precision): the value of `(float) x` and of
a single-precision operation whose exact result is `x`. -/
def f32 (x : ℚ) : ℚ := round_to 24 x

/-- Rounding to `double`: the value of a double-precision operation whose
exact result is `x`. -/
def d64 (x : ℚ) : ℚ := round_to 53 x

/-- A `struct thread` as far as the sampler reads it: the core it runs on and
the counter snapshot `q_ptrs->tsc`, `q_ptrs->instr`. -/
structure Thread where
  core : Nat
  tsc : Nat
  instr : Nat
  deriving DecidableEq

/-- A `struct ias_data` as far as the hyperthread subcontroller touches it.
The declaration (`ias.h`) is not among the sources; the fields are those the
code of `ias_ht.c` reads and writes. -/
structure IasData where
  /-- stable identity, index of the per-sibling arrays -/
  idx : Nat
  /-- classification: latency-critical (`true`) or best-effort -/
  is_lc : Bool
  /-- threads of the process, `p->active_threads[0 .. active_thread_count)` -/
  active_threads : List Thread
  ht_last_tsc : Nat → Nat
  ht_last_instr : Nat → Nat
  ht_last_gen : Nat → Nat
  ht_start_running_tsc : Nat → Nat
  ht_unpaired_ipc : ℚ
  ht_pairing_ipc : Nat → ℚ
  ht_max_ipc : ℚ
  ht_last_banned_tsc : Nat → Nat

/-- The mutable globals: the records, the list walked by `ias_for_each_proc`,
the per-core occupant `cores[]`, the per-core generation counter `ias_gen[]`
and the per-core idle timestamp `cores_idle_tsc[]`. -/
structure IasState where
  heap : Nat → IasData
  tracked : List Nat
  cores : Nat → Option Nat
  ias_gen : Nat → Nat
  cores_idle_tsc : Nat → Nat

/-- The constants and tables the file takes from its headers, none of which
is among the sources: sibling topology, the cores walked by
`sched_for_each_allowed_core`, the cycle calibration (positive once the
timer is calibrated), the two tuning constants and the smoothing function
`ias_ewma (cur, newv, factor)`, which returns the new value of `*curp`. -/
structure Config where
  sched_siblings : Nat → Nat
  allowed_cores : List Nat
  cycles_per_us : Nat
  cycles_per_us_pos : 0 < cycles_per_us
  IAS_HT_MAX_IPC_DEGRADE_RATIO : ℚ
  IAS_EWMA_FACTOR : ℚ
  ias_ewma : ℚ → ℚ → ℚ → ℚ

/-- A call `ias_discover_better_pairing (sd, core, sib_sd, now_tsc)`. -/
structure Request where
  sd : Nat
  core : Nat
  sib_sd : Option Nat
  now_tsc : Nat
  deriving DecidableEq

/-- Write of a whole record through a pointer. -/
def IasState.store (s : IasState) (sd : Nat) (r : IasData) : IasState :=
  { s with heap := Function.update s.heap sd r }

/-- Assignment `sd->ht_max_ipc = v`. -/
def IasState.set_max (s : IasState) (sd : Nat) (v : ℚ) : IasState :=
  s.store sd { s.heap sd with ht_max_ipc := v }

/-- Assignment `sd->ht_last_banned_tsc[k] = t`. -/
def IasState.set_ban (s : IasState) (sd : Nat) (k : Nat) (t : Nat) : IasState :=
  s.store sd { s.heap sd with ht_last_banned_tsc := Function.update (s.heap sd).ht_last_banned_tsc k t }

/-- Modelled from the spec: `is_lc` of `ias.h`, which is not among the
sources; the classification of the record, and false for `NULL` (the
detector calls it on the sibling before testing for `NULL`, and the spec
lets the sibling be "BE or none" when it is not latency-critical). -/
def is_lc (s : IasState) (sd : Option Nat) : Bool :=
  match sd with
  | none => false
  | some a => (s.heap a).is_lc

/-- Embedding of `ias_ht_poll_one (sd, th)`: the state after the call.  The
locals `ipc`, `us`, `run_us`, `idle_us` are `float`: each cast and each
operation is rounded by `f32`.  The comparisons with `5.0`, `1E-3` and
`WARMUP_US` are exact; no `float` lies between 1/1000 and the `double`
nearest to it, so the comparison of the `float` `ipc` with the constant `1E-3`
is written as a comparison with 1/1000.  `MIN(100.0, us) * IAS_EWMA_FACTOR`
is a `double` product.  The quotient `ipc` is taken only when
`cur_tsc != last_tsc`, so for 64-bit counter values its divisor is not zero;
the divisor `cycles_per_us` is positive. -/
def ias_ht_poll_one (cfg : Config) (s : IasState) (sd : Nat) (th : Thread) : IasState :=
  let core := th.core
  let sib := cfg.sched_siblings core
  let r := s.heap sd
  let last_tsc := r.ht_last_tsc core
  let last_instr := r.ht_last_instr core
  let cur_tsc := th.tsc
  let cur_instr := th.instr
  let r1 : IasData :=
    { r with ht_last_tsc := Function.update r.ht_last_tsc core cur_tsc,
             ht_last_instr := Function.update r.ht_last_instr core cur_instr }
  let s1 := s.store sd r1
  if cur_tsc = last_tsc then s1
  else if s.ias_gen core ≠ r.ht_last_gen core then
    s.store sd { r1 with ht_last_gen := Function.update r1.ht_last_gen core (s.ias_gen core) }
  else
    let ipc : ℚ := f32 (f32 (u64_sub cur_instr last_instr) / f32 (u64_sub cur_tsc last_tsc))
    if ipc > 5 ∨ ipc < 1 / 1000 then s1
    else
      let us : ℚ := f32 (f32 (u64_sub cur_tsc last_tsc) / f32 cfg.cycles_per_us)
      let run_us : ℚ :=
        f32 (f32 (f32 cur_tsc - f32 (r.ht_start_running_tsc core)) / f32 cfg.cycles_per_us)
      let idle_us : ℚ :=
        f32 (f32 (f32 cur_tsc - f32 (s.cores_idle_tsc sib)) / f32 cfg.cycles_per_us)
      if f32 (run_us - us) < WARMUP_US ∨ f32 (idle_us - us) < WARMUP_US then s1
      else
        match s.cores sib with
        | none =>
          let v := cfg.ias_ewma r1.ht_unpaired_ipc ipc (d64 (MIN 100 us * cfg.IAS_EWMA_FACTOR))
          s.store sd { r1 with ht_unpaired_ipc := v }
        | some w =>
          let run_us2 : ℚ :=
            f32 (f32 (f32 cur_tsc - f32 ((s1.heap w).ht_start_running_tsc sib)) /
              f32 cfg.cycles_per_us)
          if f32 (run_us2 - us) < WARMUP_US then s1
          else
            let k := (s1.heap w).idx
            let v :=
              cfg.ias_ewma (r1.ht_pairing_ipc k) ipc (d64 (MIN 100 us * cfg.IAS_EWMA_FACTOR))
            s.store sd { r1 with ht_pairing_ipc := Function.update r1.ht_pairing_ipc k v }

/-- Embedding of `is_bad_pairing (sd, sib_sd)`; `sd` is an address, `sib_sd`
an address or `NULL`. -/
def is_bad_pairing (cfg : Config) (s : IasState) (sd : Nat) (sib_sd : Option Nat) : Bool :=
  let cur_ipc : ℚ :=
    match sib_sd with
    | none => (s.heap sd).ht_unpaired_ipc
    | some b => (s.heap sd).ht_pairing_ipc (s.heap b).idx
  let ratio : FVal :=
    if cur_ipc > 1 / 1000 then FVal.div cur_ipc (s.heap sd).ht_max_ipc else FVal.fin 1
  ratio.le (1 - cfg.IAS_HT_MAX_IPC_DEGRADE_RATIO)

/-- One iteration of the loop of `ias_ht_detect_bad_pairing`, for `core`:
the state and the requests issued so far, before and after. -/
def detect_core (cfg : Config) (now_tsc : Nat) (st : IasState × List Request) (core : Nat) :
    IasState × List Request :=
  match st.1.cores core with
  | none => st
  | some sd =>
    let sib := cfg.sched_siblings core
    let sib_sd := st.1.cores sib
    let sd_is_lc := is_lc st.1 (some sd)
    let sib_sd_is_lc := is_lc st.1 sib_sd
    if sib_sd_is_lc then st
    else if !is_bad_pairing cfg st.1 sd sib_sd then st
    else if sd_is_lc then
      match sib_sd with
      | some b =>
        (st.1.set_ban b (st.1.heap sd).idx now_tsc, st.2 ++ [Request.mk b sib (some sd) now_tsc])
      | none => st
    else (st.1, st.2 ++ [Request.mk sd core sib_sd now_tsc])

/-- Embedding of `ias_ht_detect_bad_pairing ()`; `now_tsc` is the value
`rdtsc ()` returns at its start. The result is the state after the pass and
the requests issued, in order. -/
def ias_ht_detect_bad_pairing (cfg : Config) (now_tsc : Nat) (s : IasState) :
    IasState × List Request :=
  cfg.allowed_cores.foldl (detect_core cfg now_tsc) (s, [])

/-- The first loop of `ias_ht_poll`: sample every thread of every process. -/
def sample_all (cfg : Config) (s : IasState) : IasState :=
  s.tracked.foldl
    (fun st sd => (st.heap sd).active_threads.foldl (fun st2 th => ias_ht_poll_one cfg st2 sd th) st)
    s

/-- Body of the outer loop of the second part of `ias_ht_poll`, for `sd`. -/
def refresh_one (s : IasState) (sd : Nat) : IasState :=
  let s0 := s.set_max sd 0
  let s1 := s0.tracked.foldl
    (fun st sd2 =>
      st.set_max sd (MAX (st.heap sd).ht_max_ipc ((st.heap sd).ht_pairing_ipc (st.heap sd2).idx)))
    s0
  s1.set_max sd (MAX (s1.heap sd).ht_max_ipc (s1.heap sd).ht_unpaired_ipc)

/-- The second loop of `ias_ht_poll`: refresh the maximum IPC of each process. -/
def refresh_max_ipc (s : IasState) : IasState :=
  s.tracked.foldl refresh_one s

/-- Embedding of `ias_ht_poll (now_us)`; `now_tsc` is the cycle counter read
by the detector. -/
def ias_ht_poll (cfg : Config) (_now_us : Nat) (now_tsc : Nat) (s : IasState) :
    IasState × List Request :=
  ias_ht_detect_bad_pairing cfg now_tsc (refresh_max_ipc (sample_all cfg s))

/-! ## Specification predicates -/

/-- What a detector pass started in `s` keeps true of its running state `st`:
occupancy and classification are those of `s`, every request so far names a
best-effort workload to move, and a record whose ban timestamps differ from
those of `s` is best-effort. -/
def DetectInv (s : IasState) (st : IasState × List Request) : Prop :=
  st.1.cores = s.cores ∧
  (∀ a, (st.1.heap a).is_lc = (s.heap a).is_lc) ∧
  (∀ r ∈ st.2, (s.heap r.sd).is_lc = false) ∧
  (∀ a, (st.1.heap a).ht_last_banned_tsc ≠ (s.heap a).ht_last_banned_tsc →
    (s.heap a).is_lc = false)

/-- The value the second loop of `ias_ht_poll` leaves in `sd->ht_max_ipc`,
as a function of the other fields: the running `MAX` over the tracked list,
started at 0, then `MAX` with `ht_unpaired_ipc`. -/
def max_ipc_of (s : IasState) (sd : Nat) : ℚ :=
  MAX (s.tracked.foldl (fun m sd2 => MAX m ((s.heap sd).ht_pairing_ipc (s.heap sd2).idx)) 0)
    (s.heap sd).ht_unpaired_ipc

/-- The state `s` with `ht_max_ipc` of the record at every address `a`
replaced by `m a`. -/
def with_max (m : Nat → ℚ) (s : IasState) : IasState :=
  { s with heap := fun a => { s.heap a with ht_max_ipc := m a } }

/-- The state `s` in which the records at the addresses of `l` have had their
`ht_max_ipc` recomputed. -/
def refreshed (s : IasState) (l : List Nat) : IasState :=
  with_max (fun a => if a ∈ l then max_ipc_of s a else (s.heap a).ht_max_ipc) s

/-- Two states that differ at most in the `ht_max_ipc` fields of the tracked
workloads: same tracked list, occupancy, generation counters and idle
timestamps, every record equal to its counterpart once `ht_max_ipc` is
blanked, and untracked records equal in `ht_max_ipc` too. -/
def SameButMaxIpc (s1 s2 : IasState) : Prop :=
  s1.tracked = s2.tracked ∧ s1.cores = s2.cores ∧ s1.ias_gen = s2.ias_gen ∧
  s1.cores_idle_tsc = s2.cores_idle_tsc ∧
  (∀ a, ({ s1.heap a with ht_max_ipc := 0 } : IasData) = { s2.heap a with ht_max_ipc := 0 }) ∧
  (∀ a, a ∉ s1.tracked → (s1.heap a).ht_max_ipc = (s2.heap a).ht_max_ipc)

/-! ## The quantities of one sample -/

/-- The record after the counter bookkeeping `ias_ht_poll_one` does first:
`ht_last_tsc[core]` and `ht_last_instr[core]` take the thread's current
counters. -/
def IasData.bookkept (r : IasData) (th : Thread) : IasData :=
  { r with ht_last_tsc := Function.update r.ht_last_tsc th.core th.tsc,
           ht_last_instr := Function.update r.ht_last_instr th.core th.instr }

/-- Assignment `ht_last_gen[core] = g` on a record. -/
def IasData.set_gen (r : IasData) (core g : Nat) : IasData :=
  { r with ht_last_gen := Function.update r.ht_last_gen core g }

/-- Assignment `ht_unpaired_ipc = v` on a record. -/
def IasData.set_unpaired (r : IasData) (v : ℚ) : IasData :=
  { r with ht_unpaired_ipc := v }

/-- Assignment `ht_pairing_ipc[k] = v` on a record. -/
def IasData.set_pairing (r : IasData) (k : Nat) (v : ℚ) : IasData :=
  { r with ht_pairing_ipc := Function.update r.ht_pairing_ipc k v }

/-- The local `ipc` of `ias_ht_poll_one (sd, th)` called in state `s`: the
single-precision quotient of the unsigned 64-bit counter differences, each
converted to `float`. -/
def sample_ipc (s : IasState) (sd : Nat) (th : Thread) : ℚ :=
  f32 (f32 (u64_sub th.instr ((s.heap sd).ht_last_instr th.core)) /
    f32 (u64_sub th.tsc ((s.heap sd).ht_last_tsc th.core)))

/-- The local `us`: the cycle difference in microseconds, in single
precision. -/
def sample_us (cfg : Config) (s : IasState) (sd : Nat) (th : Thread) : ℚ :=
  f32 (f32 (u64_sub th.tsc ((s.heap sd).ht_last_tsc th.core)) / f32 cfg.cycles_per_us)

/-- The local `run_us` at its first assignment, as the code computes it:
`(float) cur_tsc` minus the start timestamp converted to `float`, divided by
`cycles_per_us`, all in single precision. -/
def sample_run_us (cfg : Config) (s : IasState) (sd : Nat) (th : Thread) : ℚ :=
  f32 (f32 (f32 th.tsc - f32 ((s.heap sd).ht_start_running_tsc th.core)) / f32 cfg.cycles_per_us)

/-- The local `idle_us`, as the code computes it. -/
def sample_idle_us (cfg : Config) (s : IasState) (th : Thread) : ℚ :=
  f32 (f32 (f32 th.tsc - f32 (s.cores_idle_tsc (cfg.sched_siblings th.core))) /
    f32 cfg.cycles_per_us)

/-- The local `run_us` at its second assignment, as the code computes it from
the start timestamp of the sibling's workload `w` on the sibling core. -/
def sample_sib_run_us (cfg : Config) (s : IasState) (w : Nat) (th : Thread) : ℚ :=
  f32 (f32 (f32 th.tsc - f32 ((s.heap w).ht_start_running_tsc (cfg.sched_siblings th.core))) /
    f32 cfg.cycles_per_us)

/-- The value of the expression `run_us - us` of the first warm-up test. -/
def sample_run_gap (cfg : Config) (s : IasState) (sd : Nat) (th : Thread) : ℚ :=
  f32 (sample_run_us cfg s sd th - sample_us cfg s sd th)

/-- The value of the expression `idle_us - us` of the first warm-up test. -/
def sample_idle_gap (cfg : Config) (s : IasState) (sd : Nat) (th : Thread) : ℚ :=
  f32 (sample_idle_us cfg s th - sample_us cfg s sd th)

/-- The value of the expression `run_us - us` of the second warm-up test,
where `run_us` comes from the sibling's workload `w`. -/
def sample_sib_gap (cfg : Config) (s : IasState) (sd w : Nat) (th : Thread) : ℚ :=
  f32 (sample_sib_run_us cfg s w th - sample_us cfg s sd th)

/-- The smoothing weight passed to `ias_ewma`: the `double` product
`MIN(100.0, us) * IAS_EWMA_FACTOR`. -/
def sample_weight (cfg : Config) (s : IasState) (sd : Nat) (th : Thread) : ℚ :=
  d64 (MIN 100 (sample_us cfg s sd th) * cfg.IAS_EWMA_FACTOR)

/-- The local `cur_ipc` of `is_bad_pairing (sd, sib_sd)`. -/
def cur_ipc (s : IasState) (sd : Nat) (sib_sd : Option Nat) : ℚ :=
  match sib_sd with
  | none => (s.heap sd).ht_unpaired_ipc
  | some b => (s.heap sd).ht_pairing_ipc (s.heap b).idx

/-- What a detector pass with timestamp `now_tsc` started in `s` keeps true
of its running state `st`: every request so far carries `now_tsc`, and every
ban entry that differs from its value in `s` holds `now_tsc`. -/
def StampInv (now_tsc : Nat) (s : IasState) (st : IasState × List Request) : Prop :=
  (∀ r ∈ st.2, r.now_tsc = now_tsc) ∧
  (∀ a k, (st.1.heap a).ht_last_banned_tsc k ≠ (s.heap a).ht_last_banned_tsc k →
    (st.1.heap a).ht_last_banned_tsc k = now_tsc)

/-- What a call of the sampler leaves alone in every record when it takes no
sample: both kinds of smoothed IPC estimate. -/
def EstimatesKept (s t : IasState) : Prop :=
  ∀ a, (t.heap a).ht_unpaired_ipc = (s.heap a).ht_unpaired_ipc ∧
    (t.heap a).ht_pairing_ipc = (s.heap a).ht_pairing_ipc

/-! ## Example states -/

/-- A record with the given identity and classification and every other
field zero. -/
def IasData.blank (idx : Nat) (lc : Bool) : IasData :=
  { idx := idx, is_lc := lc, active_threads := [],
    ht_last_tsc := fun _ => 0, ht_last_instr := fun _ => 0, ht_last_gen := fun _ => 0,
    ht_start_running_tsc := fun _ => 0, ht_unpaired_ipc := 0, ht_pairing_ipc := fun _ => 0,
    ht_max_ipc := 0, ht_last_banned_tsc := fun _ => 0 }

/-- Example configuration: cores 0 and 1 are siblings of each other, both
allowed; degrade ratio 0.2; smoothing `newv * factor + cur * (1 - factor)`. -/
def ex_cfg : Config :=
  { sched_siblings := fun c => if c = 0 then 1 else 0,
    allowed_cores := [0, 1],
    cycles_per_us := 2000,
    cycles_per_us_pos := by decide,
    IAS_HT_MAX_IPC_DEGRADE_RATIO := 1 / 5,
    IAS_EWMA_FACTOR := 1 / 1000,
    ias_ewma := fun cur newv factor => newv * factor + cur * (1 - factor) }

/-- Example state of the spec: workload A (address 1, `idx` 1, classified
`lcA`, `max_ipc = 2.0`, `pairing_ipc[2] = p`) on core 0 and workload B
(address 2, `idx` 2, classified `lcB`, `max_ipc = 2.0`, `pairing_ipc[1] = q`)
on its sibling core 1. -/
def ex_pair (lcA lcB : Bool) (p q : ℚ) : IasState :=
  { heap := fun a =>
      if a = 1 then
        { IasData.blank 1 lcA with ht_max_ipc := 2, ht_pairing_ipc := fun k => if k = 2 then p else 0 }
      else if a = 2 then
        { IasData.blank 2 lcB with ht_max_ipc := 2, ht_pairing_ipc := fun k => if k = 1 then q else 0 }
      else IasData.blank 0 false,
    tracked := [1, 2],
    cores := fun c => if c = 0 then some 1 else if c = 1 then some 2 else none,
    ias_gen := fun _ => 0,
    cores_idle_tsc := fun _ => 0 }

/-- Example state: one workload (address 1, `idx` 1, classified `lc`,
`unpaired_ipc = u`, `pairing_ipc[2] = m`, `max_ipc = m`) on core 0, sibling
core 1 idle; a second tracked workload (address 2, `idx` 2) holds no core. -/
def ex_alone (lc : Bool) (u m : ℚ) : IasState :=
  { heap := fun a =>
      if a = 1 then
        { IasData.blank 1 lc with
            ht_max_ipc := m, ht_unpaired_ipc := u, ht_pairing_ipc := fun k => if k = 2 then m else 0 }
      else if a = 2 then IasData.blank 2 false
      else IasData.blank 0 false,
    tracked := [1, 2],
    cores := fun c => if c = 0 then some 1 else none,
    ias_gen := fun _ => 0,
    cores_idle_tsc := fun _ => 0 }

/-- Example thread on core 0 with the given counters. -/
def ex_thread (tsc instr : Nat) : Thread := { core := 0, tsc := tsc, instr := instr }

/-- Example state for the sampler: one tracked best-effort workload (address
1, `idx` 1) on core 0, last seen with counters `(1000000, 0)`, running since
`start`, with `unpaired_ipc = 4.0 = max_ipc` and one thread whose counters
are `(1125000, 125000)`: 125000 cycles (62.5 microseconds at 2000 cycles per
microsecond) and 125000 instructions since the last sample, all of which
single precision represents exactly; the sibling core 1 holds `sib`; every
generation counter is `gen` and every recorded tag 0; every core idle since
0. -/
def ex_run (sib : Option Nat) (gen start : Nat) : IasState :=
  { heap := fun a =>
      if a = 1 then
        { IasData.blank 1 false with
            active_threads := [ex_thread 1125000 125000],
            ht_last_tsc := fun _ => 1000000,
            ht_start_running_tsc := fun _ => start,
            ht_unpaired_ipc := 4, ht_max_ipc := 4 }
      else IasData.blank 0 false,
    tracked := [1],
    cores := fun c => if c = 0 then some 1 else if c = 1 then sib else none,
    ias_gen := fun _ => gen,
    cores_idle_tsc := fun _ => 0 }

/-- Example state with cycle counts of the size a running machine has: as
`ex_run none 0 start`, but last seen at cycle count `last`. -/
def ex_late (last start : Nat) : IasState :=
  { heap := fun a =>
      if a = 1 then
        { IasData.blank 1 false with
            ht_last_tsc := fun _ => last,
            ht_start_running_tsc := fun _ => start,
            ht_unpaired_ipc := 4, ht_max_ipc := 4 }
      else IasData.blank 0 false,
    tracked := [1],
    cores := fun c => if c = 0 then some 1 else none,
    ias_gen := fun _ => 0,
    cores_idle_tsc := fun _ => 0 }

/-! ## The bad-pairing test -/

/-- Unfolding of `is_bad_pairing` when no sample is usable for the ratio. -/
theorem is_bad_pairing_floor (cfg : Config) (s : IasState) (sd : Nat) (sib_sd : Option Nat)
    (hD : 0 < cfg.IAS_HT_MAX_IPC_DEGRADE_RATIO)
    (h : ¬ ((match sib_sd with
        | none => (s.heap sd).ht_unpaired_ipc
        | some b => (s.heap sd).ht_pairing_ipc (s.heap b).idx) > 1 / 1000)) :
    is_bad_pairing cfg s sd sib_sd = false := by
  unfold is_bad_pairing
  simp only [h, if_false]
  simp only [FVal.le, decide_eq_false_iff_not, not_le]
  linarith

/-- C5: `is_bad_pairing` reads `ht_unpaired_ipc` when there is no sibling
workload and `ht_pairing_ipc[sib_sd->idx]` when there is one; with a positive
degrade ratio it answers true exactly when that value is above `1e-3` and its
quotient by `ht_max_ipc` is at most `1 - IAS_HT_MAX_IPC_DEGRADE_RATIO` (for
`ht_max_ipc = 0` the quotient is `+inf` and the answer false).  A value at or
below the floor is never a bad pairing, whatever `ht_max_ipc` is; the
function is total. -/
theorem is_bad_pairing_spec (cfg : Config) (s : IasState) (sd : Nat)
    (hD : 0 < cfg.IAS_HT_MAX_IPC_DEGRADE_RATIO) :
    (is_bad_pairing cfg s sd none = true ↔
      (s.heap sd).ht_unpaired_ipc > 1 / 1000 ∧
      (FVal.div (s.heap sd).ht_unpaired_ipc (s.heap sd).ht_max_ipc).le
        (1 - cfg.IAS_HT_MAX_IPC_DEGRADE_RATIO) = true) ∧
    (∀ b : Nat, is_bad_pairing cfg s sd (some b) = true ↔
      (s.heap sd).ht_pairing_ipc (s.heap b).idx > 1 / 1000 ∧
      (FVal.div ((s.heap sd).ht_pairing_ipc (s.heap b).idx) (s.heap sd).ht_max_ipc).le
        (1 - cfg.IAS_HT_MAX_IPC_DEGRADE_RATIO) = true) ∧
    (∀ x m : ℚ, (FVal.div x m).le (1 - cfg.IAS_HT_MAX_IPC_DEGRADE_RATIO) = true ↔
      (m ≠ 0 ∧ x / m ≤ 1 - cfg.IAS_HT_MAX_IPC_DEGRADE_RATIO) ∨ (m = 0 ∧ x < 0)) ∧
    ((s.heap sd).ht_unpaired_ipc ≤ 1 / 1000 → is_bad_pairing cfg s sd none = false) ∧
    (∀ b : Nat, (s.heap sd).ht_pairing_ipc (s.heap b).idx ≤ 1 / 1000 →
      is_bad_pairing cfg s sd (some b) = false) := by
  refine ⟨?_, ?_, ?_, ?_, ?_⟩
  · by_cases h : (s.heap sd).ht_unpaired_ipc > 1 / 1000
    · simp only [is_bad_pairing, if_pos h]
      exact ⟨fun x => ⟨h, x⟩, fun x => x.2⟩
    · rw [is_bad_pairing_floor cfg s sd none hD h]
      exact ⟨fun x => (by cases x), fun x => absurd x.1 h⟩
  · intro b
    by_cases h : (s.heap sd).ht_pairing_ipc (s.heap b).idx > 1 / 1000
    · simp only [is_bad_pairing, if_pos h]
      exact ⟨fun x => ⟨h, x⟩, fun x => x.2⟩
    · rw [is_bad_pairing_floor cfg s sd (some b) hD h]
      exact ⟨fun x => (by cases x), fun x => absurd x.1 h⟩
  · intro x m
    by_cases hm : m = 0
    · subst hm
      by_cases hx : 0 < x
      · simp [FVal.div, FVal.le, hx, not_lt.mpr hx.le]
      · by_cases hx2 : x < 0
        · simp [FVal.div, FVal.le, hx, hx2]
        · simp [FVal.div, FVal.le, hx, hx2]
    · simp [FVal.div, FVal.le, hm]
  · intro h
    exact is_bad_pairing_floor cfg s sd none hD (not_lt.mpr h)
  · intro b h
    exact is_bad_pairing_floor cfg s sd (some b) hD (not_lt.mpr h)

/-! ## One core of the detector -/

theorem is_lc_some (s : IasState) (a : Nat) : is_lc s (some a) = (s.heap a).is_lc := rfl

theorem detect_core_none (cfg : Config) (now_tsc : Nat) (st : IasState × List Request)
    (core : Nat) (h : st.1.cores core = none) : detect_core cfg now_tsc st core = st := by
  unfold detect_core
  simp only [h]

theorem detect_core_sib_lc (cfg : Config) (now_tsc : Nat) (st : IasState × List Request)
    (core : Nat) (h : is_lc st.1 (st.1.cores (cfg.sched_siblings core)) = true) :
    detect_core cfg now_tsc st core = st := by
  unfold detect_core
  cases hc : st.1.cores core with
  | none => rfl
  | some sd => simp only [h, if_true]

theorem detect_core_not_bad (cfg : Config) (now_tsc : Nat) (st : IasState × List Request)
    (core sd : Nat) (hc : st.1.cores core = some sd)
    (h : is_bad_pairing cfg st.1 sd (st.1.cores (cfg.sched_siblings core)) = false) :
    detect_core cfg now_tsc st core = st := by
  unfold detect_core
  simp only [hc, h, Bool.not_false, if_true, ite_self]

theorem detect_core_lc_idle (cfg : Config) (now_tsc : Nat) (st : IasState × List Request)
    (core sd : Nat) (hc : st.1.cores core = some sd) (hlc : (st.1.heap sd).is_lc = true)
    (hs : st.1.cores (cfg.sched_siblings core) = none) :
    detect_core cfg now_tsc st core = st := by
  unfold detect_core
  simp only [hc, hs, is_lc, hlc, if_true, ite_self]

theorem detect_core_lc_ban (cfg : Config) (now_tsc : Nat) (st : IasState × List Request)
    (core sd b : Nat) (hc : st.1.cores core = some sd) (hlc : (st.1.heap sd).is_lc = true)
    (hs : st.1.cores (cfg.sched_siblings core) = some b) (hb : (st.1.heap b).is_lc = false)
    (hbad : is_bad_pairing cfg st.1 sd (some b) = true) :
    detect_core cfg now_tsc st core =
      (st.1.set_ban b (st.1.heap sd).idx now_tsc,
        st.2 ++ [Request.mk b (cfg.sched_siblings core) (some sd) now_tsc]) := by
  unfold detect_core
  simp [hc, hs, is_lc, hlc, hb, hbad]

theorem detect_core_be (cfg : Config) (now_tsc : Nat) (st : IasState × List Request)
    (core sd : Nat) (hc : st.1.cores core = some sd) (hbe : (st.1.heap sd).is_lc = false)
    (hs : is_lc st.1 (st.1.cores (cfg.sched_siblings core)) = false)
    (hbad : is_bad_pairing cfg st.1 sd (st.1.cores (cfg.sched_siblings core)) = true) :
    detect_core cfg now_tsc st core =
      (st.1, st.2 ++ [Request.mk sd core (st.1.cores (cfg.sched_siblings core)) now_tsc]) := by
  unfold detect_core
  simp only [hc, hs, is_lc_some, hbe, hbad]
  simp

/-- The three possible outcomes of evaluating one core. -/
theorem detect_core_cases (cfg : Config) (now_tsc : Nat) (st : IasState × List Request)
    (core : Nat) :
    detect_core cfg now_tsc st core = st ∨
    (∃ sd b, st.1.cores core = some sd ∧ st.1.cores (cfg.sched_siblings core) = some b ∧
      (st.1.heap sd).is_lc = true ∧ (st.1.heap b).is_lc = false ∧
      is_bad_pairing cfg st.1 sd (some b) = true ∧
      detect_core cfg now_tsc st core =
        (st.1.set_ban b (st.1.heap sd).idx now_tsc,
          st.2 ++ [Request.mk b (cfg.sched_siblings core) (some sd) now_tsc])) ∨
    (∃ sd, st.1.cores core = some sd ∧ (st.1.heap sd).is_lc = false ∧
      is_lc st.1 (st.1.cores (cfg.sched_siblings core)) = false ∧
      is_bad_pairing cfg st.1 sd (st.1.cores (cfg.sched_siblings core)) = true ∧
      detect_core cfg now_tsc st core =
        (st.1, st.2 ++ [Request.mk sd core (st.1.cores (cfg.sched_siblings core)) now_tsc])) := by
  cases hc : st.1.cores core with
  | none => exact Or.inl (detect_core_none cfg now_tsc st core hc)
  | some sd =>
    by_cases hl : is_lc st.1 (st.1.cores (cfg.sched_siblings core)) = true
    · exact Or.inl (detect_core_sib_lc cfg now_tsc st core hl)
    have hl2 := Bool.not_eq_true _ ▸ hl
    by_cases hbad : is_bad_pairing cfg st.1 sd (st.1.cores (cfg.sched_siblings core)) = true
    swap
    · exact Or.inl (detect_core_not_bad cfg now_tsc st core sd hc (Bool.not_eq_true _ ▸ hbad))
    by_cases hlc : (st.1.heap sd).is_lc = true
    swap
    · have hlc2 := Bool.not_eq_true _ ▸ hlc
      exact Or.inr (Or.inr ⟨sd, rfl, hlc2, hl2, hbad,
        detect_core_be cfg now_tsc st core sd hc hlc2 hl2 hbad⟩)
    cases hs : st.1.cores (cfg.sched_siblings core) with
    | none => exact Or.inl (detect_core_lc_idle cfg now_tsc st core sd hc hlc hs)
    | some b =>
      rw [hs] at hl2 hbad
      exact Or.inr (Or.inl ⟨sd, b, rfl, rfl, hlc, hl2, hbad,
        detect_core_lc_ban cfg now_tsc st core sd b hc hlc hs hl2 hbad⟩)

/-- C4: when the sibling's workload is latency-critical, or the pairing of the
workload on `core` is not bad, evaluating `core` changes neither the state
(no ban timestamp is written) nor the requests issued. -/
theorem detect_core_no_action (cfg : Config) (now_tsc : Nat) (st : IasState × List Request)
    (core sd : Nat) (hc : st.1.cores core = some sd)
    (h : is_lc st.1 (st.1.cores (cfg.sched_siblings core)) = true ∨
      is_bad_pairing cfg st.1 sd (st.1.cores (cfg.sched_siblings core)) = false) :
    detect_core cfg now_tsc st core = st := by
  rcases h with h | h
  · exact detect_core_sib_lc cfg now_tsc st core h
  · exact detect_core_not_bad cfg now_tsc st core sd hc h

/-- C3: a best-effort workload `sd` on `core` whose sibling core holds no
workload or a best-effort one, and whose pairing is bad: evaluating `core`
issues exactly one request, `(sd, core, sib_sd or NULL, now_tsc)`, and leaves
the state (every ban timestamp included) as it was. No hypothesis speaks of
the sibling's own IPC ratio. -/
theorem detect_core_be_migrates_self (cfg : Config) (now_tsc : Nat)
    (st : IasState × List Request) (core sd : Nat)
    (hc : st.1.cores core = some sd) (hbe : (st.1.heap sd).is_lc = false)
    (hs : st.1.cores (cfg.sched_siblings core) = none ∨
      ∃ b, st.1.cores (cfg.sched_siblings core) = some b ∧ (st.1.heap b).is_lc = false)
    (hbad : is_bad_pairing cfg st.1 sd (st.1.cores (cfg.sched_siblings core)) = true) :
    detect_core cfg now_tsc st core =
      (st.1, st.2 ++ [Request.mk sd core (st.1.cores (cfg.sched_siblings core)) now_tsc]) := by
  apply detect_core_be cfg now_tsc st core sd hc hbe _ hbad
  rcases hs with hs | ⟨b, hs, hb⟩
  · rw [hs]; rfl
  · rw [hs]; exact hb

/-! ### Evaluation of the examples -/

theorem ex_pair_bad_A (lcA lcB : Bool) (q : ℚ) :
    is_bad_pairing ex_cfg (ex_pair lcA lcB 1 q) 1 (some 2) = true := by
  simp [is_bad_pairing, ex_pair, ex_cfg, IasData.blank, FVal.div, FVal.le]
  norm_num

theorem ex_pair_good_A (lcA lcB : Bool) (q : ℚ) :
    is_bad_pairing ex_cfg (ex_pair lcA lcB 2 q) 1 (some 2) = false := by
  simp [is_bad_pairing, ex_pair, ex_cfg, IasData.blank, FVal.div, FVal.le]

theorem ex_pair_good_B (lcA lcB : Bool) (p : ℚ) :
    is_bad_pairing ex_cfg (ex_pair lcA lcB p 2) 2 (some 1) = false := by
  simp [is_bad_pairing, ex_pair, ex_cfg, IasData.blank, FVal.div, FVal.le]

theorem ex_alone_bad (lc : Bool) :
    is_bad_pairing ex_cfg (ex_alone lc 4 5) 1 none = true := by
  simp [is_bad_pairing, ex_alone, ex_cfg, IasData.blank, FVal.div, FVal.le]
  norm_num

/-- Witness of C4, the no-request example of the spec: A latency-critical
with `max_ipc = 2.0` and `pairing_ipc[B.idx] = 2.0`. -/
theorem detect_core_no_action_witness :
    detect_core ex_cfg 7 (ex_pair true false 2 0, []) 0 = (ex_pair true false 2 0, []) :=
  detect_core_no_action ex_cfg 7 (ex_pair true false 2 0, []) 0 1 rfl
    (Or.inr (ex_pair_good_A true false 0))

/-- Witness of C3: two best-effort workloads, the one on core 0 degraded. -/
theorem detect_core_be_migrates_self_witness :
    detect_core ex_cfg 7 (ex_pair false false 1 2, []) 0 =
      (ex_pair false false 1 2, [Request.mk 1 0 (some 2) 7]) :=
  detect_core_be_migrates_self ex_cfg 7 (ex_pair false false 1 2, []) 0 1 rfl rfl
    (Or.inr ⟨2, rfl, rfl⟩) (ex_pair_bad_A false false 2)

/-! ## A whole pass of the detector -/

theorem set_ban_cores (s : IasState) (b k t : Nat) : (s.set_ban b k t).cores = s.cores := rfl

theorem set_ban_heap_ne (s : IasState) (b k t a : Nat) (h : a ≠ b) :
    (s.set_ban b k t).heap a = s.heap a := by
  simp [IasState.set_ban, IasState.store, Function.update_noteq h]

theorem set_ban_is_lc (s : IasState) (b k t a : Nat) :
    ((s.set_ban b k t).heap a).is_lc = (s.heap a).is_lc := by
  by_cases h : a = b
  · subst h; simp [IasState.set_ban, IasState.store]
  · rw [set_ban_heap_ne s b k t a h]

theorem detect_core_inv (cfg : Config) (now_tsc : Nat) (s : IasState)
    (st : IasState × List Request) (core : Nat) (h : DetectInv s st) :
    DetectInv s (detect_core cfg now_tsc st core) := by
  obtain ⟨h1, h2, h3, h4⟩ := h
  rcases detect_core_cases cfg now_tsc st core with e | ⟨sd, b, _, _, _, hb, _, e⟩ |
    ⟨sd, _, hbe, _, _, e⟩
  · rw [e]; exact ⟨h1, h2, h3, h4⟩
  · rw [e]
    refine ⟨h1, ?_, ?_, ?_⟩
    · intro a; rw [set_ban_is_lc]; exact h2 a
    · intro r hr
      rcases List.mem_append.mp hr with hr | hr
      · exact h3 r hr
      · rw [List.mem_singleton.mp hr]; rw [← h2]; exact hb
    · intro a ha
      by_cases hab : a = b
      · rw [hab, ← h2]; exact hb
      · rw [set_ban_heap_ne _ _ _ _ _ hab] at ha; exact h4 a ha
  · rw [e]
    refine ⟨h1, h2, ?_, h4⟩
    intro r hr
    rcases List.mem_append.mp hr with hr | hr
    · exact h3 r hr
    · rw [List.mem_singleton.mp hr]; rw [← h2]; exact hbe

theorem detect_fold_inv (cfg : Config) (now_tsc : Nat) (s : IasState) (l : List Nat) :
    ∀ st : IasState × List Request, DetectInv s st →
      DetectInv s (l.foldl (detect_core cfg now_tsc) st) := by
  induction l with
  | nil => intro st h; exact h
  | cons c l ih =>
    intro st h
    exact ih _ (detect_core_inv cfg now_tsc s st c h)

/-- C1 (LC protection): in every state, every request issued by one pass of
`ias_ht_detect_bad_pairing` names a best-effort workload as the one to move,
and every record whose ban timestamps the pass changed is best-effort; the
pass changes no classification.  In particular no request names a
latency-critical occupant of any core, whatever the IPC values are. -/
theorem detect_protects_lc (cfg : Config) (now_tsc : Nat) (s : IasState) :
    (∀ r ∈ (ias_ht_detect_bad_pairing cfg now_tsc s).2, is_lc s (some r.sd) = false) ∧
    (∀ a, ((ias_ht_detect_bad_pairing cfg now_tsc s).1.heap a).ht_last_banned_tsc ≠
        (s.heap a).ht_last_banned_tsc → (s.heap a).is_lc = false) ∧
    (∀ a, ((ias_ht_detect_bad_pairing cfg now_tsc s).1.heap a).is_lc = (s.heap a).is_lc) ∧
    (∀ core a, s.cores core = some a → (s.heap a).is_lc = true →
      ∀ r ∈ (ias_ht_detect_bad_pairing cfg now_tsc s).2, r.sd ≠ a) := by
  have h0 : DetectInv s (s, []) :=
    ⟨rfl, fun _ => rfl, fun r hr => absurd hr (List.not_mem_nil r), fun a ha => absurd rfl ha⟩
  obtain ⟨_, h2, h3, h4⟩ := detect_fold_inv cfg now_tsc s cfg.allowed_cores (s, []) h0
  refine ⟨h3, h4, h2, ?_⟩
  intro core a _ hlc r hr hra
  have := h3 r hr
  rw [hra, hlc] at this
  cases this

theorem is_bad_pairing_of_ratio (cfg : Config) (s : IasState) (sd b : Nat)
    (hfloor : (s.heap sd).ht_pairing_ipc (s.heap b).idx > 1 / 1000)
    (hratio : (FVal.div ((s.heap sd).ht_pairing_ipc (s.heap b).idx) (s.heap sd).ht_max_ipc).le
      (1 - cfg.IAS_HT_MAX_IPC_DEGRADE_RATIO) = true) :
    is_bad_pairing cfg s sd (some b) = true := by
  simp only [is_bad_pairing, if_pos hfloor]
  exact hratio

theorem detect_lc_ban_pass (cfg : Config) (now_tsc : Nat) (s : IasState)
    (c sb A B : Nat)
    (hal : cfg.allowed_cores = [c, sb] ∨ cfg.allowed_cores = [sb, c])
    (hsib : cfg.sched_siblings c = sb) (hsib2 : cfg.sched_siblings sb = c)
    (hA : s.cores c = some A) (hB : s.cores sb = some B)
    (hlcA : (s.heap A).is_lc = true) (hbeB : (s.heap B).is_lc = false)
    (hbad : is_bad_pairing cfg s A (some B) = true) :
    ias_ht_detect_bad_pairing cfg now_tsc s =
      (s.set_ban B (s.heap A).idx now_tsc, [Request.mk B sb (some A) now_tsc]) := by
  have hB2 : s.cores (cfg.sched_siblings c) = some B := by rw [hsib]; exact hB
  have hA2 : s.cores (cfg.sched_siblings sb) = some A := by rw [hsib2]; exact hA
  have e1 := detect_core_lc_ban cfg now_tsc (s, []) c A B hA hlcA hB2 hbeB hbad
  rw [hsib] at e1
  have e0 : detect_core cfg now_tsc (s, []) sb = (s, []) := by
    apply detect_core_sib_lc
    show is_lc s (s.cores (cfg.sched_siblings sb)) = true
    rw [hA2]; exact hlcA
  rcases hal with hal | hal
  · simp only [ias_ht_detect_bad_pairing, hal, List.foldl]
    rw [e1]
    apply detect_core_sib_lc
    show is_lc (s.set_ban B (s.heap A).idx now_tsc)
      ((s.set_ban B (s.heap A).idx now_tsc).cores (cfg.sched_siblings sb)) = true
    rw [set_ban_cores, hA2, is_lc_some, set_ban_is_lc]
    exact hlcA
  · simp only [ias_ht_detect_bad_pairing, hal, List.foldl]
    rw [e0, e1]; rfl

/-- C2: core `c` holds a latency-critical workload `A`, its sibling core `sb`
a best-effort workload `B`, and `A`'s pairing is bad.  One pass over the two
cores (in either order) issues the single request `(B, sb, A, now_tsc)`; after
it `B->ht_last_banned_tsc[A->idx]` is `now_tsc`, every other ban entry of `B`,
every other field of `B`, every other record and the globals are as before. -/
theorem detect_lc_bans_be_sibling (cfg : Config) (now_tsc : Nat) (s : IasState)
    (c sb A B : Nat)
    (hal : cfg.allowed_cores = [c, sb] ∨ cfg.allowed_cores = [sb, c])
    (hsib : cfg.sched_siblings c = sb) (hsib2 : cfg.sched_siblings sb = c)
    (hA : s.cores c = some A) (hB : s.cores sb = some B)
    (hlcA : (s.heap A).is_lc = true) (hbeB : (s.heap B).is_lc = false)
    (hfloor : (s.heap A).ht_pairing_ipc (s.heap B).idx > 1 / 1000)
    (hratio : (FVal.div ((s.heap A).ht_pairing_ipc (s.heap B).idx) (s.heap A).ht_max_ipc).le
      (1 - cfg.IAS_HT_MAX_IPC_DEGRADE_RATIO) = true) :
    (ias_ht_detect_bad_pairing cfg now_tsc s).2 = [Request.mk B sb (some A) now_tsc] ∧
    ((ias_ht_detect_bad_pairing cfg now_tsc s).1.heap B).ht_last_banned_tsc (s.heap A).idx =
      now_tsc ∧
    (∀ k, k ≠ (s.heap A).idx →
      ((ias_ht_detect_bad_pairing cfg now_tsc s).1.heap B).ht_last_banned_tsc k =
        (s.heap B).ht_last_banned_tsc k) ∧
    (∀ a, a ≠ B → (ias_ht_detect_bad_pairing cfg now_tsc s).1.heap a = s.heap a) ∧
    ((ias_ht_detect_bad_pairing cfg now_tsc s).1.heap B).ht_unpaired_ipc =
      (s.heap B).ht_unpaired_ipc ∧
    ((ias_ht_detect_bad_pairing cfg now_tsc s).1.heap B).ht_pairing_ipc =
      (s.heap B).ht_pairing_ipc ∧
    ((ias_ht_detect_bad_pairing cfg now_tsc s).1.heap B).ht_max_ipc = (s.heap B).ht_max_ipc ∧
    ((ias_ht_detect_bad_pairing cfg now_tsc s).1.heap B).idx = (s.heap B).idx ∧
    ((ias_ht_detect_bad_pairing cfg now_tsc s).1.heap B).is_lc = (s.heap B).is_lc ∧
    ((ias_ht_detect_bad_pairing cfg now_tsc s).1.heap B).active_threads =
      (s.heap B).active_threads ∧
    ((ias_ht_detect_bad_pairing cfg now_tsc s).1.heap B).ht_last_tsc = (s.heap B).ht_last_tsc ∧
    ((ias_ht_detect_bad_pairing cfg now_tsc s).1.heap B).ht_last_instr =
      (s.heap B).ht_last_instr ∧
    ((ias_ht_detect_bad_pairing cfg now_tsc s).1.heap B).ht_last_gen = (s.heap B).ht_last_gen ∧
    ((ias_ht_detect_bad_pairing cfg now_tsc s).1.heap B).ht_start_running_tsc =
      (s.heap B).ht_start_running_tsc ∧
    (ias_ht_detect_bad_pairing cfg now_tsc s).1.tracked = s.tracked ∧
    (ias_ht_detect_bad_pairing cfg now_tsc s).1.cores = s.cores ∧
    (ias_ht_detect_bad_pairing cfg now_tsc s).1.ias_gen = s.ias_gen ∧
    (ias_ht_detect_bad_pairing cfg now_tsc s).1.cores_idle_tsc = s.cores_idle_tsc := by
  have hbad := is_bad_pairing_of_ratio cfg s A B hfloor hratio
  rw [detect_lc_ban_pass cfg now_tsc s c sb A B hal hsib hsib2 hA hB hlcA hbeB hbad]
  refine ⟨rfl, ?_, ?_, ?_, ?_, ?_, ?_, ?_, ?_, ?_, ?_, ?_, ?_, ?_, rfl, rfl, rfl, rfl⟩
  · simp [IasState.set_ban, IasState.store]
  · intro k hk
    simp [IasState.set_ban, IasState.store, Function.update_noteq hk]
  · intro a ha
    simp [IasState.set_ban, IasState.store, Function.update_noteq ha]
  all_goals simp [IasState.set_ban, IasState.store]

/-- Witness of C2, the bad-pairing example of the spec: `A.max_ipc = 2.0`,
`A.pairing_ipc[B.idx] = 1.0`, degrade ratio `0.2`; `A` has `idx` 1 and `B` is
at address 2 on core 1. -/
theorem detect_lc_bans_be_sibling_witness :
    (ias_ht_detect_bad_pairing ex_cfg 7 (ex_pair true false 1 2)).2 =
      [Request.mk 2 1 (some 1) 7] ∧
    ((ias_ht_detect_bad_pairing ex_cfg 7 (ex_pair true false 1 2)).1.heap 2).ht_last_banned_tsc 1
      = 7 :=
  have h := detect_lc_bans_be_sibling ex_cfg 7 (ex_pair true false 1 2) 0 1 1 2 (Or.inl rfl)
    rfl rfl rfl rfl rfl rfl
    (by simp [ex_pair, IasData.blank]; norm_num)
    (by simp [ex_pair, ex_cfg, IasData.blank, FVal.div, FVal.le]; norm_num)
  ⟨h.1, h.2.1⟩

/-- C7: best-effort workloads `C` on core `c` and `D` on the sibling core `d`,
`C`'s pairing bad and `D`'s not.  One pass over the two cores (in either
order) issues the single request `(C, c, D, now_tsc)` and leaves the state as
it was: no ban timestamp is written. -/
theorem detect_be_pair_one_request (cfg : Config) (now_tsc : Nat) (s : IasState)
    (c d C D : Nat)
    (hal : cfg.allowed_cores = [c, d] ∨ cfg.allowed_cores = [d, c])
    (hsib : cfg.sched_siblings c = d) (hsib2 : cfg.sched_siblings d = c)
    (hC : s.cores c = some C) (hD : s.cores d = some D)
    (hbeC : (s.heap C).is_lc = false) (hbeD : (s.heap D).is_lc = false)
    (hbadC : is_bad_pairing cfg s C (some D) = true)
    (hokD : is_bad_pairing cfg s D (some C) = false) :
    ias_ht_detect_bad_pairing cfg now_tsc s = (s, [Request.mk C c (some D) now_tsc]) := by
  have hD2 : s.cores (cfg.sched_siblings c) = some D := by rw [hsib]; exact hD
  have hC2 : s.cores (cfg.sched_siblings d) = some C := by rw [hsib2]; exact hC
  have e1 : ∀ l, detect_core cfg now_tsc (s, l) c = (s, l ++ [Request.mk C c (some D) now_tsc]) := by
    intro l
    have := detect_core_be cfg now_tsc (s, l) c C hC hbeC
      (by show is_lc s (s.cores (cfg.sched_siblings c)) = false; rw [hD2]; exact hbeD)
      (by show is_bad_pairing cfg s C (s.cores (cfg.sched_siblings c)) = true
          rw [hD2]; exact hbadC)
    rw [this]
    show (s, l ++ [Request.mk C c (s.cores (cfg.sched_siblings c)) now_tsc]) = _
    rw [hD2]
  have e0 : ∀ l, detect_core cfg now_tsc (s, l) d = (s, l) := by
    intro l
    apply detect_core_not_bad cfg now_tsc (s, l) d D hD
    show is_bad_pairing cfg s D (s.cores (cfg.sched_siblings d)) = false
    rw [hC2]; exact hokD
  rcases hal with hal | hal
  · simp only [ias_ht_detect_bad_pairing, hal, List.foldl]
    rw [e1, e0]; rfl
  · simp only [ias_ht_detect_bad_pairing, hal, List.foldl]
    rw [e0, e1]; rfl

/-- Witness of C7: `C` with `max_ipc = 2.0` and `pairing_ipc[D.idx] = 1.0`,
`D` with `max_ipc = 2.0` and `pairing_ipc[C.idx] = 2.0`. -/
theorem detect_be_pair_one_request_witness :
    ias_ht_detect_bad_pairing ex_cfg 7 (ex_pair false false 1 2) =
      (ex_pair false false 1 2, [Request.mk 1 0 (some 2) 7]) :=
  detect_be_pair_one_request ex_cfg 7 (ex_pair false false 1 2) 0 1 1 2 (Or.inl rfl) rfl rfl
    rfl rfl rfl rfl (ex_pair_bad_A false false 2) (ex_pair_good_B false false 1)

/-- Witness of C5 at degrade ratio `0.2`: an `unpaired_ipc` of 0, below the
floor, is not a bad pairing; a `pairing_ipc` of 1.0 against `max_ipc = 2.0`
is. -/
theorem is_bad_pairing_spec_witness :
    0 < ex_cfg.IAS_HT_MAX_IPC_DEGRADE_RATIO ∧
    is_bad_pairing ex_cfg (ex_pair true false 1 2) 1 none = false ∧
    is_bad_pairing ex_cfg (ex_pair true false 1 2) 1 (some 2) = true :=
  have hD : 0 < ex_cfg.IAS_HT_MAX_IPC_DEGRADE_RATIO := by norm_num [ex_cfg]
  ⟨hD,
   (is_bad_pairing_spec ex_cfg (ex_pair true false 1 2) 1 hD).2.2.2.1
     (by simp [ex_pair, IasData.blank]),
   ((is_bad_pairing_spec ex_cfg (ex_pair true false 1 2) 1 hD).2.1 2).mpr
     ⟨by simp [ex_pair, IasData.blank]; norm_num,
      by simp [ex_pair, ex_cfg, IasData.blank, FVal.div, FVal.le]; norm_num⟩⟩

/-! ## The aggregator -/

theorem MAX_eq_max (a b : ℚ) : MAX a b = max a b := by
  unfold MAX
  split_ifs with h
  · exact (max_eq_left h.le).symm
  · exact (max_eq_right (not_lt.mp h)).symm

theorem set_max_eq_with_max (s : IasState) (sd : Nat) (v : ℚ) :
    s.set_max sd v = with_max (fun a => if a = sd then v else (s.heap a).ht_max_ipc) s := by
  unfold IasState.set_max IasState.store with_max
  congr 1
  funext a
  by_cases h : a = sd
  · subst h; simp
  · simp [Function.update_noteq h, h]

theorem with_max_with_max (m m2 : Nat → ℚ) (s : IasState) :
    with_max m2 (with_max m s) = with_max m2 s := rfl

theorem max_ipc_of_with_max (m : Nat → ℚ) (s : IasState) (sd : Nat) :
    max_ipc_of (with_max m s) sd = max_ipc_of s sd := rfl

/-- The inner loop over `sd2`, started with `sd->ht_max_ipc = v`. -/
theorem refresh_inner (s : IasState) (sd : Nat) (l : List Nat) :
    ∀ v : ℚ,
      l.foldl (fun st sd2 =>
          st.set_max sd (MAX (st.heap sd).ht_max_ipc ((st.heap sd).ht_pairing_ipc (st.heap sd2).idx)))
        (s.set_max sd v) =
      s.set_max sd (l.foldl (fun m sd2 => MAX m ((s.heap sd).ht_pairing_ipc (s.heap sd2).idx)) v) := by
  induction l with
  | nil => intro v; rfl
  | cons w l ih =>
    intro v
    simp only [List.foldl]
    rw [← ih]
    congr 1
    simp only [set_max_eq_with_max, with_max_with_max]
    simp [with_max]
    funext a
    by_cases h : a = sd <;> simp [h]

theorem refresh_one_eq (s : IasState) (sd : Nat) :
    refresh_one s sd = s.set_max sd (max_ipc_of s sd) := by
  unfold refresh_one
  simp only []
  have ht : (s.set_max sd 0).tracked = s.tracked := rfl
  rw [ht, refresh_inner s sd s.tracked 0]
  simp only [set_max_eq_with_max, with_max_with_max]
  simp [with_max, max_ipc_of]
  funext a
  by_cases h : a = sd <;> simp [h]

theorem refresh_fold_eq (s : IasState) (l : List Nat) :
    l.foldl refresh_one s = refreshed s l := by
  induction l using List.reverseRecOn with
  | nil => simp [refreshed, with_max]
  | append_singleton l a ih =>
    rw [List.foldl_append, ih]
    simp only [List.foldl]
    rw [refresh_one_eq, set_max_eq_with_max]
    unfold refreshed
    rw [with_max_with_max, max_ipc_of_with_max]
    unfold with_max
    congr 1
    funext x
    by_cases h : x = a
    · simp [h]
    · simp [h]

theorem refresh_max_ipc_eq (s : IasState) : refresh_max_ipc s = refreshed s s.tracked :=
  refresh_fold_eq s s.tracked

theorem refreshed_max_ipc (s : IasState) (sd : Nat) (h : sd ∈ s.tracked) :
    ((refresh_max_ipc s).heap sd).ht_max_ipc = max_ipc_of s sd := by
  rw [refresh_max_ipc_eq]
  simp [refreshed, with_max, h]

/-- The running `MAX` of a loop over a list: at least the start value and
every element, and equal to one of them. -/
theorem foldl_MAX_spec (f : Nat → ℚ) (l : List Nat) :
    ∀ v : ℚ,
      v ≤ l.foldl (fun m w => MAX m (f w)) v ∧
      (∀ w ∈ l, f w ≤ l.foldl (fun m w => MAX m (f w)) v) ∧
      (l.foldl (fun m w => MAX m (f w)) v = v ∨
        ∃ w ∈ l, l.foldl (fun m w => MAX m (f w)) v = f w) := by
  induction l with
  | nil =>
    intro v
    exact ⟨le_refl v, fun w hw => absurd hw (List.not_mem_nil w), Or.inl rfl⟩
  | cons x l ih =>
    intro v
    obtain ⟨h1, h2, h3⟩ := ih (MAX v (f x))
    simp only [List.foldl]
    have hv : v ≤ MAX v (f x) := by rw [MAX_eq_max]; exact le_max_left _ _
    have hx : f x ≤ MAX v (f x) := by rw [MAX_eq_max]; exact le_max_right _ _
    refine ⟨le_trans hv h1, ?_, ?_⟩
    · intro w hw
      rcases List.mem_cons.mp hw with hw | hw
      · rw [hw]; exact le_trans hx h1
      · exact h2 w hw
    · rcases h3 with h3 | ⟨w, hw, h3⟩
      · rcases max_choice v (f x) with hm | hm
        · left; rw [h3, MAX_eq_max, hm]
        · right; exact ⟨x, List.mem_cons_self x l, by rw [h3, MAX_eq_max, hm]⟩
      · right; exact ⟨w, List.mem_cons_of_mem x hw, h3⟩

/-- C8: after the aggregator, the `ht_max_ipc` of every tracked workload is
the maximum of 0, its `ht_unpaired_ipc` and its `ht_pairing_ipc[w->idx]` over
the tracked workloads `w`: it bounds each of them and equals one of them.  So
it is never negative, and when `ht_unpaired_ipc` is not negative it is the
maximum of the estimates alone. -/
theorem refresh_max_ipc_is_max (s : IasState) (sd : Nat) (h : sd ∈ s.tracked) :
    0 ≤ ((refresh_max_ipc s).heap sd).ht_max_ipc ∧
    ((refresh_max_ipc s).heap sd).ht_unpaired_ipc ≤ ((refresh_max_ipc s).heap sd).ht_max_ipc ∧
    (∀ w ∈ (refresh_max_ipc s).tracked,
      ((refresh_max_ipc s).heap sd).ht_pairing_ipc ((refresh_max_ipc s).heap w).idx ≤
        ((refresh_max_ipc s).heap sd).ht_max_ipc) ∧
    (((refresh_max_ipc s).heap sd).ht_max_ipc = 0 ∨
      ((refresh_max_ipc s).heap sd).ht_max_ipc = ((refresh_max_ipc s).heap sd).ht_unpaired_ipc ∨
      ∃ w ∈ (refresh_max_ipc s).tracked, ((refresh_max_ipc s).heap sd).ht_max_ipc =
        ((refresh_max_ipc s).heap sd).ht_pairing_ipc ((refresh_max_ipc s).heap w).idx) ∧
    (0 ≤ ((refresh_max_ipc s).heap sd).ht_unpaired_ipc →
      ((refresh_max_ipc s).heap sd).ht_max_ipc = ((refresh_max_ipc s).heap sd).ht_unpaired_ipc ∨
      ∃ w ∈ (refresh_max_ipc s).tracked, ((refresh_max_ipc s).heap sd).ht_max_ipc =
        ((refresh_max_ipc s).heap sd).ht_pairing_ipc ((refresh_max_ipc s).heap w).idx) := by
  have hm := refreshed_max_ipc s sd h
  have ht : (refresh_max_ipc s).tracked = s.tracked := by rw [refresh_max_ipc_eq]; rfl
  have hu : ((refresh_max_ipc s).heap sd).ht_unpaired_ipc = (s.heap sd).ht_unpaired_ipc := by
    rw [refresh_max_ipc_eq]; rfl
  have hp : ((refresh_max_ipc s).heap sd).ht_pairing_ipc = (s.heap sd).ht_pairing_ipc := by
    rw [refresh_max_ipc_eq]; rfl
  have hi : ∀ w, ((refresh_max_ipc s).heap w).idx = (s.heap w).idx := by
    intro w; rw [refresh_max_ipc_eq]; rfl
  rw [hm, ht, hu, hp]
  simp only [hi]
  obtain ⟨h1, h2, h3⟩ :=
    foldl_MAX_spec (fun k => (s.heap sd).ht_pairing_ipc (s.heap k).idx) s.tracked 0
  have e : max_ipc_of s sd =
      max (s.tracked.foldl (fun m w => MAX m ((s.heap sd).ht_pairing_ipc (s.heap w).idx)) 0)
        (s.heap sd).ht_unpaired_ipc := by
    unfold max_ipc_of; rw [MAX_eq_max]
  have hcases : max_ipc_of s sd = 0 ∨ max_ipc_of s sd = (s.heap sd).ht_unpaired_ipc ∨
      ∃ w ∈ s.tracked, max_ipc_of s sd = (s.heap sd).ht_pairing_ipc (s.heap w).idx := by
    rcases max_choice
      (s.tracked.foldl (fun m w => MAX m ((s.heap sd).ht_pairing_ipc (s.heap w).idx)) 0)
      (s.heap sd).ht_unpaired_ipc with hc | hc
    · rcases h3 with h3 | ⟨w, hw, h3⟩
      · left; rw [e, hc, h3]
      · right; right; exact ⟨w, hw, by rw [e, hc, h3]⟩
    · right; left; rw [e, hc]
  have hub : (s.heap sd).ht_unpaired_ipc ≤ max_ipc_of s sd := by rw [e]; exact le_max_right _ _
  refine ⟨?_, hub, ?_, hcases, ?_⟩
  · rw [e]; exact le_trans h1 (le_max_left _ _)
  · intro w hw
    rw [e]; exact le_trans (h2 w hw) (le_max_left _ _)
  · intro h0
    rcases hcases with hc | hc | hc
    · left; exact le_antisymm (by rw [hc]; exact h0) hub
    · left; exact hc
    · right; exact hc

/-- Witness of C8: in the example state the tracked workload at address 1 has
`ht_pairing_ipc[2] = 5.0` and `ht_unpaired_ipc = 4.0`. -/
theorem refresh_max_ipc_is_max_witness :
    0 ≤ ((refresh_max_ipc (ex_alone false 4 5)).heap 1).ht_max_ipc :=
  (refresh_max_ipc_is_max (ex_alone false 4 5) 1 (by simp [ex_alone])).1

/-- C9: the aggregator is idempotent; it changes nothing but `ht_max_ipc`
fields, and no field at all of a record that is not tracked. -/
theorem refresh_max_ipc_idempotent (s : IasState) :
    refresh_max_ipc (refresh_max_ipc s) = refresh_max_ipc s ∧
    refresh_max_ipc s = with_max (fun a => ((refresh_max_ipc s).heap a).ht_max_ipc) s ∧
    (∀ a, a ∉ s.tracked → (refresh_max_ipc s).heap a = s.heap a) := by
  refine ⟨?_, ?_, ?_⟩
  · rw [refresh_max_ipc_eq (refresh_max_ipc s), refresh_max_ipc_eq s]
    unfold refreshed
    rw [with_max_with_max]
    congr 1
    funext a
    show (if a ∈ s.tracked then max_ipc_of s a
      else (if a ∈ s.tracked then max_ipc_of s a else (s.heap a).ht_max_ipc)) =
      if a ∈ s.tracked then max_ipc_of s a else (s.heap a).ht_max_ipc
    by_cases h : a ∈ s.tracked <;> simp [h]
  · rw [refresh_max_ipc_eq]
    rfl
  · intro a ha
    rw [refresh_max_ipc_eq]
    simp [refreshed, with_max, ha]

/-! ## The poll: sampler, aggregator, detector -/

/-- The sampler neither reads nor writes `ht_max_ipc`. -/
theorem poll_one_with_max (cfg : Config) (m : Nat → ℚ) (s : IasState) (sd : Nat) (th : Thread) :
    ias_ht_poll_one cfg (with_max m s) sd th = with_max m (ias_ht_poll_one cfg s sd th) := by
  cases hcs : s.cores (cfg.sched_siblings th.core) with
  | none =>
    unfold ias_ht_poll_one
    simp only [with_max, IasState.store, hcs]
    split_ifs <;>
    · congr 1
      funext a
      by_cases h : a = sd
      · subst h; simp
      · simp [Function.update_noteq h]
  | some w =>
    by_cases hw : w = sd
    · subst hw
      unfold ias_ht_poll_one
      simp only [with_max, IasState.store, hcs, Function.update_same]
      split_ifs <;>
      · congr 1
        funext a
        by_cases h : a = w
        · subst h; simp
        · simp [Function.update_noteq h]
    · unfold ias_ht_poll_one
      simp only [with_max, IasState.store, hcs, Function.update_noteq hw]
      split_ifs <;>
      · congr 1
        funext a
        by_cases h : a = sd
        · subst h; simp
        · simp [Function.update_noteq h]

theorem with_max_self (s : IasState) : with_max (fun a => (s.heap a).ht_max_ipc) s = s := rfl

theorem poll_one_tracked (cfg : Config) (s : IasState) (sd : Nat) (th : Thread) :
    (ias_ht_poll_one cfg s sd th).tracked = s.tracked := by
  cases hcs : s.cores (cfg.sched_siblings th.core) with
  | none =>
    unfold ias_ht_poll_one
    simp only [hcs]
    split_ifs <;> rfl
  | some w =>
    unfold ias_ht_poll_one
    simp only [hcs]
    split_ifs <;> rfl

theorem poll_one_max_ipc (cfg : Config) (s : IasState) (sd : Nat) (th : Thread) (a : Nat) :
    ((ias_ht_poll_one cfg s sd th).heap a).ht_max_ipc = (s.heap a).ht_max_ipc := by
  have h := poll_one_with_max cfg (fun a => (s.heap a).ht_max_ipc) s sd th
  rw [with_max_self] at h
  rw [h]
  rfl

theorem poll_threads_with_max (cfg : Config) (m : Nat → ℚ) (sd : Nat) (l : List Thread) :
    ∀ st : IasState,
      l.foldl (fun st2 th => ias_ht_poll_one cfg st2 sd th) (with_max m st) =
        with_max m (l.foldl (fun st2 th => ias_ht_poll_one cfg st2 sd th) st) := by
  induction l with
  | nil => intro st; rfl
  | cons th l ih =>
    intro st
    simp only [List.foldl]
    rw [poll_one_with_max, ih]

theorem poll_procs_with_max (cfg : Config) (m : Nat → ℚ) (l : List Nat) :
    ∀ st : IasState,
      l.foldl (fun st sd =>
          (st.heap sd).active_threads.foldl (fun st2 th => ias_ht_poll_one cfg st2 sd th) st)
        (with_max m st) =
      with_max m (l.foldl (fun st sd =>
          (st.heap sd).active_threads.foldl (fun st2 th => ias_ht_poll_one cfg st2 sd th) st) st) := by
  induction l with
  | nil => intro st; rfl
  | cons sd l ih =>
    intro st
    simp only [List.foldl]
    rw [← ih]
    congr 1
    exact poll_threads_with_max cfg m sd (st.heap sd).active_threads st

theorem sample_all_with_max (cfg : Config) (m : Nat → ℚ) (s : IasState) :
    sample_all cfg (with_max m s) = with_max m (sample_all cfg s) :=
  poll_procs_with_max cfg m s.tracked s

theorem poll_threads_frame (cfg : Config) (s : IasState) (sd : Nat) (l : List Thread) :
    ∀ st : IasState,
      (st.tracked = s.tracked ∧ ∀ a, (st.heap a).ht_max_ipc = (s.heap a).ht_max_ipc) →
      ((l.foldl (fun st2 th => ias_ht_poll_one cfg st2 sd th) st).tracked = s.tracked ∧
        ∀ a, ((l.foldl (fun st2 th => ias_ht_poll_one cfg st2 sd th) st).heap a).ht_max_ipc =
          (s.heap a).ht_max_ipc) := by
  induction l with
  | nil => intro st h; exact h
  | cons th l ih =>
    intro st h
    simp only [List.foldl]
    apply ih
    refine ⟨?_, ?_⟩
    · rw [poll_one_tracked]; exact h.1
    · intro a; rw [poll_one_max_ipc]; exact h.2 a

theorem poll_procs_frame (cfg : Config) (s : IasState) (l : List Nat) :
    ∀ st : IasState,
      (st.tracked = s.tracked ∧ ∀ a, (st.heap a).ht_max_ipc = (s.heap a).ht_max_ipc) →
      ((l.foldl (fun st sd =>
          (st.heap sd).active_threads.foldl (fun st2 th => ias_ht_poll_one cfg st2 sd th) st)
          st).tracked = s.tracked ∧
        ∀ a, ((l.foldl (fun st sd =>
          (st.heap sd).active_threads.foldl (fun st2 th => ias_ht_poll_one cfg st2 sd th) st)
          st).heap a).ht_max_ipc = (s.heap a).ht_max_ipc) := by
  induction l with
  | nil => intro st h; exact h
  | cons sd l ih =>
    intro st h
    simp only [List.foldl]
    apply ih
    exact poll_threads_frame cfg s sd (st.heap sd).active_threads st h

theorem sample_all_frame (cfg : Config) (s : IasState) :
    (sample_all cfg s).tracked = s.tracked ∧
    ∀ a, ((sample_all cfg s).heap a).ht_max_ipc = (s.heap a).ht_max_ipc :=
  poll_procs_frame cfg s s.tracked s ⟨rfl, fun _ => rfl⟩

/-- The aggregator overwrites whatever `ht_max_ipc` the tracked records held. -/
theorem refresh_with_max (m : Nat → ℚ) (s : IasState)
    (h : ∀ a, a ∉ s.tracked → m a = (s.heap a).ht_max_ipc) :
    refresh_max_ipc (with_max m s) = refresh_max_ipc s := by
  rw [refresh_max_ipc_eq, refresh_max_ipc_eq]
  unfold refreshed
  rw [with_max_with_max]
  congr 1
  funext a
  show (if a ∈ s.tracked then max_ipc_of s a else m a) =
    if a ∈ s.tracked then max_ipc_of s a else (s.heap a).ht_max_ipc
  by_cases ha : a ∈ s.tracked
  · simp [ha]
  · simp [ha, h a ha]

theorem SameButMaxIpc.eq_with_max (s1 s2 : IasState) (h : SameButMaxIpc s1 s2) :
    s2 = with_max (fun a => (s2.heap a).ht_max_ipc) s1 := by
  obtain ⟨h1, h2, h3, h4, h5, _⟩ := h
  rcases s1 with ⟨heap1, tr1, co1, ge1, id1⟩
  rcases s2 with ⟨heap2, tr2, co2, ge2, id2⟩
  simp only at h1 h2 h3 h4 h5
  subst h1 h2 h3 h4
  unfold with_max
  congr 1
  funext a
  have := congrArg (fun r : IasData => { r with ht_max_ipc := (heap2 a).ht_max_ipc }) (h5 a)
  exact this.symm

/-- C10: `ias_ht_poll` is the sampler, then the aggregator, then the
detector, and the `ht_max_ipc` values held by the tracked workloads before
the poll have no influence on it: two states that differ only there yield
the same requests and the same state after the poll. -/
theorem poll_ignores_stale_max_ipc (cfg : Config) (now_us now_tsc : Nat) (s1 s2 : IasState)
    (h : SameButMaxIpc s1 s2) :
    ias_ht_poll cfg now_us now_tsc s1 =
      ias_ht_detect_bad_pairing cfg now_tsc (refresh_max_ipc (sample_all cfg s1)) ∧
    ias_ht_poll cfg now_us now_tsc s1 = ias_ht_poll cfg now_us now_tsc s2 := by
  refine ⟨rfl, ?_⟩
  have e := SameButMaxIpc.eq_with_max s1 s2 h
  obtain ⟨_, _, _, _, _, h6⟩ := h
  unfold ias_ht_poll
  rw [e, sample_all_with_max, refresh_with_max]
  intro a ha
  obtain ⟨ft, fm⟩ := sample_all_frame cfg s1
  rw [ft] at ha
  rw [fm a, h6 a ha]

/-- Witness of C10: the example state and the same state with the
`ht_max_ipc` of both tracked workloads set to 9.0. -/
theorem poll_ignores_stale_max_ipc_witness :
    ias_ht_poll ex_cfg 0 7 (ex_pair true false 1 2) =
      ias_ht_poll ex_cfg 0 7
        (with_max (fun a => if a ∈ [1, 2] then 9 else 0) (ex_pair true false 1 2)) :=
  (poll_ignores_stale_max_ipc ex_cfg 0 7 (ex_pair true false 1 2)
    (with_max (fun a => if a ∈ [1, 2] then 9 else 0) (ex_pair true false 1 2))
    ⟨rfl, rfl, rfl, rfl, fun _ => rfl, fun a ha => by
      have h1 : a ≠ 1 := fun h => ha (by simp [ex_pair, h])
      have h2 : a ≠ 2 := fun h => ha (by simp [ex_pair, h])
      simp [with_max, ex_pair, IasData.blank, h1, h2]⟩).2

theorem ex_alone_sample : sample_all ex_cfg (ex_alone false 4 5) = ex_alone false 4 5 := by
  simp [sample_all, ex_alone, IasData.blank]

theorem ex_alone_refresh : refresh_max_ipc (ex_alone false 4 5) = ex_alone false 4 5 := by
  rw [refresh_max_ipc_eq]
  have e1 : max_ipc_of (ex_alone false 4 5) 1 = 5 := by
    simp [max_ipc_of, ex_alone, IasData.blank, MAX]
    norm_num
  have e2 : max_ipc_of (ex_alone false 4 5) 2 = 0 := by
    simp [max_ipc_of, ex_alone, IasData.blank, MAX]
  have key : ∀ a, (if a ∈ (ex_alone false 4 5).tracked then max_ipc_of (ex_alone false 4 5) a
      else ((ex_alone false 4 5).heap a).ht_max_ipc) = ((ex_alone false 4 5).heap a).ht_max_ipc := by
    intro a
    by_cases h1 : a = 1
    · subst h1
      rw [if_pos (by simp [ex_alone]), e1]
      simp [ex_alone]
    · by_cases h2 : a = 2
      · subst h2
        rw [if_pos (by simp [ex_alone]), e2]
        simp [ex_alone, IasData.blank]
      · rw [if_neg (by simp [ex_alone, h1, h2])]
  unfold refreshed
  simp only [key]
  rfl

/-! ## The unpaired workload at the threshold -/

theorem FVal.le_false_of_gt (x : FVal) (t : ℚ) (h : x.gt t = true) : x.le t = false := by
  cases x with
  | fin q =>
    simp only [FVal.gt, decide_eq_true_eq] at h
    simp only [FVal.le, decide_eq_false_iff_not, not_le]
    exact h
  | pinf => rfl
  | ninf => simp [FVal.gt] at h
  | nan => rfl

/-- C6 as stated fails: a best-effort workload alone on core 0 (sibling idle)
with `unpaired_ipc = 4.0`, `max_ipc = 5.0` and degrade ratio `0.2` has ratio
`0.8`, which is at the threshold `1 - 0.2`, and the detector requests its
migration, both when run alone and at the end of a whole poll (in which the
aggregator recomputes `max_ipc = 5.0` from `pairing_ipc[2] = 5.0`). -/
theorem unpaired_at_threshold_requested :
    (ex_alone false 4 5).cores 0 = some 1 ∧
    (ex_alone false 4 5).cores (ex_cfg.sched_siblings 0) = none ∧
    (FVal.div ((ex_alone false 4 5).heap 1).ht_unpaired_ipc
        ((ex_alone false 4 5).heap 1).ht_max_ipc).ge
      (1 - ex_cfg.IAS_HT_MAX_IPC_DEGRADE_RATIO) = true ∧
    ias_ht_detect_bad_pairing ex_cfg 7 (ex_alone false 4 5) =
      (ex_alone false 4 5, [Request.mk 1 0 none 7]) ∧
    ias_ht_poll ex_cfg 0 7 (ex_alone false 4 5) =
      (ex_alone false 4 5, [Request.mk 1 0 none 7]) := by
  have hd : ias_ht_detect_bad_pairing ex_cfg 7 (ex_alone false 4 5) =
      (ex_alone false 4 5, [Request.mk 1 0 none 7]) := by
    have e1 : detect_core ex_cfg 7 (ex_alone false 4 5, []) 0 =
        (ex_alone false 4 5, [Request.mk 1 0 none 7]) :=
      detect_core_be ex_cfg 7 (ex_alone false 4 5, []) 0 1 rfl rfl rfl (ex_alone_bad false)
    have e2 : detect_core ex_cfg 7 (ex_alone false 4 5, [Request.mk 1 0 none 7]) 1 =
        (ex_alone false 4 5, [Request.mk 1 0 none 7]) :=
      detect_core_none ex_cfg 7 _ 1 rfl
    show detect_core ex_cfg 7 (detect_core ex_cfg 7 (ex_alone false 4 5, []) 0) 1 = _
    rw [e1, e2]
  refine ⟨rfl, rfl, ?_, hd, ?_⟩
  · simp [ex_alone, ex_cfg, IasData.blank, FVal.div, FVal.ge]
    norm_num
  · unfold ias_ht_poll
    rw [ex_alone_sample, ex_alone_refresh]
    exact hd

/-- C6, amended: with a positive degrade ratio, a workload on a core whose
sibling core is idle and whose ratio `unpaired_ipc / max_ipc` is strictly
above `1 - IAS_HT_MAX_IPC_DEGRADE_RATIO` causes no request and no ban write
when its core is evaluated. -/
theorem detect_core_unpaired_above_threshold (cfg : Config) (now_tsc : Nat)
    (st : IasState × List Request) (core sd : Nat)
    (hD : 0 < cfg.IAS_HT_MAX_IPC_DEGRADE_RATIO)
    (hc : st.1.cores core = some sd) (hs : st.1.cores (cfg.sched_siblings core) = none)
    (h : (FVal.div (st.1.heap sd).ht_unpaired_ipc (st.1.heap sd).ht_max_ipc).gt
      (1 - cfg.IAS_HT_MAX_IPC_DEGRADE_RATIO) = true) :
    detect_core cfg now_tsc st core = st := by
  apply detect_core_not_bad cfg now_tsc st core sd hc
  rw [hs]
  by_cases hf : (st.1.heap sd).ht_unpaired_ipc > 1 / 1000
  · simp only [is_bad_pairing, if_pos hf]
    exact FVal.le_false_of_gt _ _ h
  · exact is_bad_pairing_floor cfg st.1 sd none hD hf

/-- Witness of amended C6: `unpaired_ipc = 4.5`, `max_ipc = 5.0`, ratio `0.9`. -/
theorem detect_core_unpaired_above_threshold_witness :
    detect_core ex_cfg 7 (ex_alone false (9 / 2) 5, []) 0 = (ex_alone false (9 / 2) 5, []) :=
  detect_core_unpaired_above_threshold ex_cfg 7 (ex_alone false (9 / 2) 5, []) 0 1
    (by norm_num [ex_cfg]) rfl rfl
    (by simp [ex_alone, ex_cfg, IasData.blank, FVal.div, FVal.gt]; norm_num)

/-! ## Rounding -/

theorem rne_intCast (n : ℤ) : rne (n : ℚ) = n := by
  unfold rne
  simp

theorem two_zpow_pos (e : ℤ) : (0 : ℚ) < (2 : ℚ) ^ e := zpow_pos (by norm_num) e

theorem log2_eq {x : ℚ} {e : ℤ} (h1 : (2 : ℚ) ^ e ≤ |x|) (h2 : |x| < (2 : ℚ) ^ (e + 1)) :
    Int.log 2 |x| = e := by
  have hpos : 0 < |x| := lt_of_lt_of_le (two_zpow_pos e) h1
  have a1 : e ≤ Int.log 2 |x| := by
    rw [← Int.zpow_le_iff_le_log (by norm_num) hpos]
    simpa using h1
  have a2 : Int.log 2 |x| < e + 1 := by
    rw [← Int.lt_zpow_iff_log_lt (by norm_num) hpos]
    simpa using h2
  omega

/-- A value that has a `p`-bit significand is left as it is. -/
theorem round_to_exact (p : Nat) (x : ℚ) (e n : ℤ)
    (h1 : (2 : ℚ) ^ e ≤ |x|) (h2 : |x| < (2 : ℚ) ^ (e + 1))
    (hx : x = (n : ℚ) * (2 : ℚ) ^ (e - ((p : ℤ) - 1))) : round_to p x = x := by
  have hpos : 0 < |x| := lt_of_lt_of_le (two_zpow_pos e) h1
  have hne : x ≠ 0 := abs_pos.mp hpos
  unfold round_to
  rw [if_neg hne, log2_eq h1 h2]
  have hu : (2 : ℚ) ^ (e - ((p : ℤ) - 1)) ≠ 0 := ne_of_gt (two_zpow_pos _)
  have hq : x / (2 : ℚ) ^ (e - ((p : ℤ) - 1)) = (n : ℚ) := by
    rw [hx]; field_simp
  rw [hq, rne_intCast, ← hx]

theorem round_to_zero (p : Nat) : round_to p 0 = 0 := by
  simp [round_to]

/-- The seven ways through `ias_ht_poll_one`, each with the conditions that
select it and the state it returns. -/
theorem poll_one_cases (cfg : Config) (s : IasState) (sd : Nat) (th : Thread) :
    (th.tsc = (s.heap sd).ht_last_tsc th.core ∧
      ias_ht_poll_one cfg s sd th = s.store sd ((s.heap sd).bookkept th)) ∨
    (th.tsc ≠ (s.heap sd).ht_last_tsc th.core ∧
      s.ias_gen th.core ≠ (s.heap sd).ht_last_gen th.core ∧
      ias_ht_poll_one cfg s sd th =
        s.store sd (((s.heap sd).bookkept th).set_gen th.core (s.ias_gen th.core))) ∨
    (th.tsc ≠ (s.heap sd).ht_last_tsc th.core ∧
      s.ias_gen th.core = (s.heap sd).ht_last_gen th.core ∧
      (sample_ipc s sd th > 5 ∨ sample_ipc s sd th < 1 / 1000) ∧
      ias_ht_poll_one cfg s sd th = s.store sd ((s.heap sd).bookkept th)) ∨
    (th.tsc ≠ (s.heap sd).ht_last_tsc th.core ∧
      s.ias_gen th.core = (s.heap sd).ht_last_gen th.core ∧
      ¬ (sample_ipc s sd th > 5 ∨ sample_ipc s sd th < 1 / 1000) ∧
      (sample_run_gap cfg s sd th < WARMUP_US ∨
        sample_idle_gap cfg s sd th < WARMUP_US) ∧
      ias_ht_poll_one cfg s sd th = s.store sd ((s.heap sd).bookkept th)) ∨
    (th.tsc ≠ (s.heap sd).ht_last_tsc th.core ∧
      s.ias_gen th.core = (s.heap sd).ht_last_gen th.core ∧
      ¬ (sample_ipc s sd th > 5 ∨ sample_ipc s sd th < 1 / 1000) ∧
      ¬ (sample_run_gap cfg s sd th < WARMUP_US ∨
        sample_idle_gap cfg s sd th < WARMUP_US) ∧
      s.cores (cfg.sched_siblings th.core) = none ∧
      ias_ht_poll_one cfg s sd th =
        s.store sd (((s.heap sd).bookkept th).set_unpaired
          (cfg.ias_ewma (s.heap sd).ht_unpaired_ipc (sample_ipc s sd th)
            (sample_weight cfg s sd th)))) ∨
    (∃ w, th.tsc ≠ (s.heap sd).ht_last_tsc th.core ∧
      s.ias_gen th.core = (s.heap sd).ht_last_gen th.core ∧
      ¬ (sample_ipc s sd th > 5 ∨ sample_ipc s sd th < 1 / 1000) ∧
      ¬ (sample_run_gap cfg s sd th < WARMUP_US ∨
        sample_idle_gap cfg s sd th < WARMUP_US) ∧
      s.cores (cfg.sched_siblings th.core) = some w ∧
      sample_sib_gap cfg s sd w th < WARMUP_US ∧
      ias_ht_poll_one cfg s sd th = s.store sd ((s.heap sd).bookkept th)) ∨
    (∃ w, th.tsc ≠ (s.heap sd).ht_last_tsc th.core ∧
      s.ias_gen th.core = (s.heap sd).ht_last_gen th.core ∧
      ¬ (sample_ipc s sd th > 5 ∨ sample_ipc s sd th < 1 / 1000) ∧
      ¬ (sample_run_gap cfg s sd th < WARMUP_US ∨
        sample_idle_gap cfg s sd th < WARMUP_US) ∧
      s.cores (cfg.sched_siblings th.core) = some w ∧
      ¬ (sample_sib_gap cfg s sd w th < WARMUP_US) ∧
      ias_ht_poll_one cfg s sd th =
        s.store sd (((s.heap sd).bookkept th).set_pairing (s.heap w).idx
          (cfg.ias_ewma ((s.heap sd).ht_pairing_ipc (s.heap w).idx) (sample_ipc s sd th)
            (sample_weight cfg s sd th)))) := by
  by_cases h1 : th.tsc = (s.heap sd).ht_last_tsc th.core
  · left
    refine ⟨h1, ?_⟩
    unfold ias_ht_poll_one
    simp only [if_pos h1]
    rfl
  right
  by_cases h2 : s.ias_gen th.core ≠ (s.heap sd).ht_last_gen th.core
  · left
    refine ⟨h1, h2, ?_⟩
    unfold ias_ht_poll_one
    simp only [if_neg h1, if_pos h2]
    rfl
  right
  have h2e : s.ias_gen th.core = (s.heap sd).ht_last_gen th.core := not_not.mp h2
  by_cases h3 : sample_ipc s sd th > 5 ∨ sample_ipc s sd th < 1 / 1000
  · left
    refine ⟨h1, h2e, h3, ?_⟩
    unfold ias_ht_poll_one
    unfold sample_ipc at h3
    simp only [if_neg h1, if_neg h2, if_pos h3]
    rfl
  right
  by_cases h4 : sample_run_gap cfg s sd th < WARMUP_US ∨
      sample_idle_gap cfg s sd th < WARMUP_US
  · left
    refine ⟨h1, h2e, h3, h4, ?_⟩
    unfold ias_ht_poll_one
    unfold sample_ipc at h3
    unfold sample_run_gap sample_idle_gap sample_run_us sample_us sample_idle_us at h4
    simp only [if_neg h1, if_neg h2, if_neg h3, if_pos h4]
    rfl
  right
  cases hcs : s.cores (cfg.sched_siblings th.core) with
  | none =>
    left
    refine ⟨h1, h2e, h3, h4, rfl, ?_⟩
    unfold ias_ht_poll_one
    unfold sample_ipc at h3
    unfold sample_run_gap sample_idle_gap sample_run_us sample_us sample_idle_us at h4
    simp only [if_neg h1, if_neg h2, if_neg h3, if_neg h4, hcs]
    rfl
  | some w =>
    right
    have hst : ((s.store sd ((s.heap sd).bookkept th)).heap w).ht_start_running_tsc =
        (s.heap w).ht_start_running_tsc := by
      by_cases hw : w = sd
      · subst hw; simp [IasState.store, IasData.bookkept]
      · simp [IasState.store, Function.update_noteq hw]
    have hidx : ((s.store sd ((s.heap sd).bookkept th)).heap w).idx = (s.heap w).idx := by
      by_cases hw : w = sd
      · subst hw; simp [IasState.store, IasData.bookkept]
      · simp [IasState.store, Function.update_noteq hw]
    by_cases h5 : sample_sib_gap cfg s sd w th < WARMUP_US
    · left
      refine ⟨w, h1, h2e, h3, h4, rfl, h5, ?_⟩
      unfold ias_ht_poll_one
      unfold sample_ipc at h3
      unfold sample_run_gap sample_idle_gap sample_run_us sample_us sample_idle_us at h4
      unfold sample_sib_gap sample_sib_run_us sample_us at h5
      rw [← hst] at h5
      simp only [if_neg h1, if_neg h2, if_neg h3, if_neg h4, hcs]
      unfold IasData.bookkept at h5
      rw [if_pos h5]
      rfl
    · right
      refine ⟨w, h1, h2e, h3, h4, rfl, h5, ?_⟩
      unfold ias_ht_poll_one
      unfold sample_ipc at h3
      unfold sample_run_gap sample_idle_gap sample_run_us sample_us sample_idle_us at h4
      unfold sample_sib_gap sample_sib_run_us sample_us at h5
      rw [← hst] at h5
      rw [← hidx]
      simp only [if_neg h1, if_neg h2, if_neg h3, if_neg h4, hcs]
      unfold IasData.bookkept at h5
      rw [if_neg h5]
      rfl

theorem store_heap_same (s : IasState) (sd : Nat) (r : IasData) : (s.store sd r).heap sd = r := by
  simp [IasState.store]

theorem store_heap_ne (s : IasState) (sd a : Nat) (r : IasData) (h : a ≠ sd) :
    (s.store sd r).heap a = s.heap a := by
  simp [IasState.store, Function.update_noteq h]

/-- A store that keeps both estimates of the record keeps them everywhere. -/
theorem store_estimates_kept (s : IasState) (sd : Nat) (r : IasData)
    (hu : r.ht_unpaired_ipc = (s.heap sd).ht_unpaired_ipc)
    (hp : r.ht_pairing_ipc = (s.heap sd).ht_pairing_ipc) :
    EstimatesKept s (s.store sd r) := by
  intro a
  by_cases h : a = sd
  · subst h; rw [store_heap_same]; exact ⟨hu, hp⟩
  · rw [store_heap_ne s sd a r h]; exact ⟨rfl, rfl⟩

theorem bookkept_estimates_kept (s : IasState) (sd : Nat) (th : Thread) :
    EstimatesKept s (s.store sd ((s.heap sd).bookkept th)) :=
  store_estimates_kept s sd _ rfl rfl

theorem set_gen_estimates_kept (s : IasState) (sd : Nat) (th : Thread) (g : Nat) :
    EstimatesKept s (s.store sd (((s.heap sd).bookkept th).set_gen th.core g)) :=
  store_estimates_kept s sd _ rfl rfl

theorem zero_delta_store_eq (cfg : Config) (s : IasState) (sd : Nat) (th : Thread)
    (h : th.tsc = (s.heap sd).ht_last_tsc th.core) :
    ias_ht_poll_one cfg s sd th = s.store sd ((s.heap sd).bookkept th) := by
  rcases poll_one_cases cfg s sd th with ⟨_, e⟩ | ⟨n, _⟩ | ⟨n, _⟩ | ⟨n, _⟩ | ⟨n, _⟩ |
    ⟨_, n, _⟩ | ⟨_, n, _⟩
  · exact e
  all_goals exact absurd h n

/-- C11: when the thread's cycle count equals the last one recorded for its
core, the call changes no `ht_unpaired_ipc`, no `ht_pairing_ipc` entry, no
`ht_max_ipc` and no `ht_last_gen` entry of any record. -/
theorem poll_one_zero_delta (cfg : Config) (s : IasState) (sd : Nat) (th : Thread)
    (h : th.tsc = (s.heap sd).ht_last_tsc th.core) :
    ∀ a, ((ias_ht_poll_one cfg s sd th).heap a).ht_unpaired_ipc = (s.heap a).ht_unpaired_ipc ∧
      ((ias_ht_poll_one cfg s sd th).heap a).ht_pairing_ipc = (s.heap a).ht_pairing_ipc ∧
      ((ias_ht_poll_one cfg s sd th).heap a).ht_max_ipc = (s.heap a).ht_max_ipc ∧
      ((ias_ht_poll_one cfg s sd th).heap a).ht_last_gen = (s.heap a).ht_last_gen := by
  intro a
  rw [zero_delta_store_eq cfg s sd th h]
  by_cases ha : a = sd
  · subst ha; rw [store_heap_same]; exact ⟨rfl, rfl, rfl, rfl⟩
  · rw [store_heap_ne s sd a _ ha]; exact ⟨rfl, rfl, rfl, rfl⟩

/-- C14: with a non-zero cycle delta and a generation counter that differs
from the tag recorded for the core, the call records the core's current
generation and changes no `ht_unpaired_ipc` and no `ht_pairing_ipc` entry. -/
theorem poll_one_gen_mismatch (cfg : Config) (s : IasState) (sd : Nat) (th : Thread)
    (h1 : th.tsc ≠ (s.heap sd).ht_last_tsc th.core)
    (h2 : s.ias_gen th.core ≠ (s.heap sd).ht_last_gen th.core) :
    ((ias_ht_poll_one cfg s sd th).heap sd).ht_last_gen th.core = s.ias_gen th.core ∧
    ∀ a, ((ias_ht_poll_one cfg s sd th).heap a).ht_unpaired_ipc = (s.heap a).ht_unpaired_ipc ∧
      ((ias_ht_poll_one cfg s sd th).heap a).ht_pairing_ipc = (s.heap a).ht_pairing_ipc := by
  have e : ias_ht_poll_one cfg s sd th =
      s.store sd (((s.heap sd).bookkept th).set_gen th.core (s.ias_gen th.core)) := by
    rcases poll_one_cases cfg s sd th with ⟨n, _⟩ | ⟨_, _, e⟩ | ⟨_, n, _⟩ | ⟨_, n, _⟩ |
      ⟨_, n, _⟩ | ⟨_, _, n, _⟩ | ⟨_, _, n, _⟩
    · exact absurd n h1
    · exact e
    all_goals exact absurd n h2
  rw [e]
  refine ⟨?_, set_gen_estimates_kept s sd th _⟩
  rw [store_heap_same]
  simp [IasData.set_gen]

theorem poll_one_unpaired_eq (cfg : Config) (s : IasState) (sd : Nat) (th : Thread)
    (h1 : th.tsc ≠ (s.heap sd).ht_last_tsc th.core)
    (h2 : s.ias_gen th.core = (s.heap sd).ht_last_gen th.core)
    (h3 : ¬ (sample_ipc s sd th > 5 ∨ sample_ipc s sd th < 1 / 1000))
    (h4 : ¬ (sample_run_gap cfg s sd th < WARMUP_US ∨
      sample_idle_gap cfg s sd th < WARMUP_US))
    (h6 : s.cores (cfg.sched_siblings th.core) = none) :
    ias_ht_poll_one cfg s sd th =
      s.store sd (((s.heap sd).bookkept th).set_unpaired
        (cfg.ias_ewma (s.heap sd).ht_unpaired_ipc (sample_ipc s sd th)
          (sample_weight cfg s sd th))) := by
  rcases poll_one_cases cfg s sd th with ⟨n, _⟩ | ⟨_, n, _⟩ | ⟨_, _, n, _⟩ | ⟨_, _, _, n, _⟩ |
    ⟨_, _, _, _, _, e⟩ | ⟨w, _, _, _, _, n, _⟩ | ⟨w, _, _, _, _, n, _⟩
  · exact absurd n h1
  · exact absurd h2 n
  · exact absurd n h3
  · exact absurd n h4
  · exact e
  · rw [h6] at n; cases n
  · rw [h6] at n; cases n

/-- C12: a sample whose computed `ipc` (the single-precision quotient of the
two 64-bit counter differences) is above 5.0 or below 1e-3 changes no
`ht_unpaired_ipc` and no `ht_pairing_ipc` entry; a sample whose `ipc` lies in
the closed interval from 1e-3 to 5.0, both bounds included, is not rejected by
this test: when the other gates pass and the sibling core is idle it is
smoothed into `ht_unpaired_ipc`. -/
theorem poll_one_implausible_ipc (cfg : Config) (s : IasState) (sd : Nat) (th : Thread) :
    ((sample_ipc s sd th > 5 ∨ sample_ipc s sd th < 1 / 1000) →
      ∀ a, ((ias_ht_poll_one cfg s sd th).heap a).ht_unpaired_ipc = (s.heap a).ht_unpaired_ipc ∧
        ((ias_ht_poll_one cfg s sd th).heap a).ht_pairing_ipc = (s.heap a).ht_pairing_ipc) ∧
    ((1 / 1000 ≤ sample_ipc s sd th ∧ sample_ipc s sd th ≤ 5) →
      th.tsc ≠ (s.heap sd).ht_last_tsc th.core →
      s.ias_gen th.core = (s.heap sd).ht_last_gen th.core →
      ¬ (sample_run_gap cfg s sd th < WARMUP_US ∨
        sample_idle_gap cfg s sd th < WARMUP_US) →
      s.cores (cfg.sched_siblings th.core) = none →
      ((ias_ht_poll_one cfg s sd th).heap sd).ht_unpaired_ipc =
        cfg.ias_ewma (s.heap sd).ht_unpaired_ipc (sample_ipc s sd th)
          (sample_weight cfg s sd th)) := by
  constructor
  · intro h
    rcases poll_one_cases cfg s sd th with ⟨_, e⟩ | ⟨_, _, e⟩ | ⟨_, _, _, e⟩ | ⟨_, _, n, _⟩ |
      ⟨_, _, n, _⟩ | ⟨_, _, _, n, _⟩ | ⟨_, _, _, n, _⟩
    · rw [e]; exact bookkept_estimates_kept s sd th
    · rw [e]; exact set_gen_estimates_kept s sd th _
    · rw [e]; exact bookkept_estimates_kept s sd th
    all_goals exact absurd h n
  · intro hb h1 h2 h4 h6
    have h3 : ¬ (sample_ipc s sd th > 5 ∨ sample_ipc s sd th < 1 / 1000) := by
      rintro (h | h)
      · exact absurd hb.2 (not_le.mpr h)
      · exact absurd hb.1 (not_le.mpr h)
    rw [poll_one_unpaired_eq cfg s sd th h1 h2 h3 h4 h6, store_heap_same]
    rfl

/-- C15 as stated fails on the zero-delta skip: the example workload was
last seen at cycle count 1000000 with generation tag 0, the core's generation
counter is now 1 and the thread's cycle count is still 1000000; the call
returns before the generation check and the tag stays 0. -/
theorem zero_delta_keeps_stale_gen :
    (ex_thread 1000000 5).tsc = ((ex_run none 1 0).heap 1).ht_last_tsc (ex_thread 1000000 5).core ∧
    (ex_run none 1 0).ias_gen (ex_thread 1000000 5).core = 1 ∧
    ((ias_ht_poll_one ex_cfg (ex_run none 1 0) 1 (ex_thread 1000000 5)).heap 1).ht_last_gen
      (ex_thread 1000000 5).core = 0 := by
  refine ⟨rfl, rfl, ?_⟩
  rw [zero_delta_store_eq ex_cfg (ex_run none 1 0) 1 (ex_thread 1000000 5) rfl, store_heap_same]
  rfl

/-- C15, amended: after every call the record's last-seen cycle and
instruction counts for the thread's core are the thread's current counters;
its generation tag for that core is the core's current generation counter
after every call with a non-zero cycle delta, and is left as it was by a call
with a zero cycle delta. -/
theorem poll_one_bookkeeping (cfg : Config) (s : IasState) (sd : Nat) (th : Thread) :
    ((ias_ht_poll_one cfg s sd th).heap sd).ht_last_tsc th.core = th.tsc ∧
    ((ias_ht_poll_one cfg s sd th).heap sd).ht_last_instr th.core = th.instr ∧
    (th.tsc ≠ (s.heap sd).ht_last_tsc th.core →
      ((ias_ht_poll_one cfg s sd th).heap sd).ht_last_gen th.core = s.ias_gen th.core) ∧
    (th.tsc = (s.heap sd).ht_last_tsc th.core →
      ((ias_ht_poll_one cfg s sd th).heap sd).ht_last_gen = (s.heap sd).ht_last_gen) := by
  rcases poll_one_cases cfg s sd th with ⟨h1, e⟩ | ⟨h1, _, e⟩ | ⟨h1, h2, _, e⟩ |
    ⟨h1, h2, _, _, e⟩ | ⟨h1, h2, _, _, _, e⟩ | ⟨w, h1, h2, _, _, _, _, e⟩ |
    ⟨w, h1, h2, _, _, _, _, e⟩
  all_goals rw [e, store_heap_same]
  · exact ⟨by simp [IasData.bookkept], by simp [IasData.bookkept],
      fun n => absurd h1 n, fun _ => rfl⟩
  · exact ⟨by simp [IasData.bookkept, IasData.set_gen],
      by simp [IasData.bookkept, IasData.set_gen],
      fun _ => by simp [IasData.set_gen], fun n => absurd n h1⟩
  · exact ⟨by simp [IasData.bookkept], by simp [IasData.bookkept],
      fun _ => h2.symm, fun n => absurd n h1⟩
  · exact ⟨by simp [IasData.bookkept], by simp [IasData.bookkept],
      fun _ => h2.symm, fun n => absurd n h1⟩
  · exact ⟨by simp [IasData.bookkept, IasData.set_unpaired],
      by simp [IasData.bookkept, IasData.set_unpaired],
      fun _ => h2.symm, fun n => absurd n h1⟩
  · exact ⟨by simp [IasData.bookkept], by simp [IasData.bookkept],
      fun _ => h2.symm, fun n => absurd n h1⟩
  · exact ⟨by simp [IasData.bookkept, IasData.set_pairing],
      by simp [IasData.bookkept, IasData.set_pairing],
      fun _ => h2.symm, fun n => absurd n h1⟩

theorem u64_sub_ex_tsc : u64_sub 1125000 1000000 = 125000 := by
  norm_num [u64_sub]

theorem u64_sub_ex_one : u64_sub 125000 0 = 125000 := by
  norm_num [u64_sub]

theorem u64_sub_ex_five : u64_sub 625000 0 = 625000 := by
  norm_num [u64_sub]

theorem u64_sub_ex_six : u64_sub 750000 0 = 750000 := by
  norm_num [u64_sub]

theorem f32_125000 : f32 125000 = 125000 :=
  round_to_exact 24 125000 16 16000000 (by norm_num) (by norm_num) (by norm_num)

theorem f32_625000 : f32 625000 = 625000 :=
  round_to_exact 24 625000 19 10000000 (by norm_num) (by norm_num) (by norm_num)

theorem f32_750000 : f32 750000 = 750000 :=
  round_to_exact 24 750000 19 12000000 (by norm_num) (by norm_num) (by norm_num)

theorem f32_1125000 : f32 1125000 = 1125000 :=
  round_to_exact 24 1125000 20 9000000 (by norm_num) (by norm_num) (by norm_num)

theorem f32_2000 : f32 2000 = 2000 :=
  round_to_exact 24 2000 10 16384000 (by norm_num) (by norm_num) (by norm_num)

theorem f32_500 : f32 500 = 500 :=
  round_to_exact 24 500 8 16384000 (by norm_num) (by norm_num) (by norm_num)

theorem f32_zero : f32 0 = 0 := round_to_zero 24

theorem f32_one : f32 1 = 1 :=
  round_to_exact 24 1 0 8388608 (by norm_num) (by norm_num) (by norm_num)

theorem f32_five : f32 5 = 5 :=
  round_to_exact 24 5 2 10485760 (by norm_num) (by norm_num) (by norm_num)

theorem f32_six : f32 6 = 6 :=
  round_to_exact 24 6 2 12582912 (by norm_num) (by norm_num) (by norm_num)

theorem f32_62_5 : f32 (125 / 2) = 125 / 2 :=
  round_to_exact 24 (125 / 2) 5 16384000 (by norm_num [abs_of_pos])
    (by norm_num [abs_of_pos]) (by norm_num)

theorem f32_562_5 : f32 (1125 / 2) = 1125 / 2 :=
  round_to_exact 24 (1125 / 2) 9 9216000 (by norm_num [abs_of_pos])
    (by norm_num [abs_of_pos]) (by norm_num)

theorem d64_sixteenth : d64 (1 / 16) = 1 / 16 :=
  round_to_exact 53 (1 / 16) (-4) 4503599627370496 (by norm_num [abs_of_pos])
    (by norm_num [abs_of_pos]) (by norm_num)

theorem ex_run_ipc (sib : Option Nat) (g st : Nat) :
    sample_ipc (ex_run sib g st) 1 (ex_thread 1125000 125000) = 1 := by
  show f32 (f32 ((u64_sub 125000 0 : ℕ) : ℚ) / f32 ((u64_sub 1125000 1000000 : ℕ) : ℚ)) = 1
  rw [u64_sub_ex_tsc, u64_sub_ex_one]
  norm_num [f32_125000, f32_one]

theorem ex_run_ipc_five (sib : Option Nat) (g st : Nat) :
    sample_ipc (ex_run sib g st) 1 (ex_thread 1125000 625000) = 5 := by
  show f32 (f32 ((u64_sub 625000 0 : ℕ) : ℚ) / f32 ((u64_sub 1125000 1000000 : ℕ) : ℚ)) = 5
  rw [u64_sub_ex_tsc, u64_sub_ex_five]
  norm_num [f32_125000, f32_625000, f32_five]

theorem ex_run_ipc_six (sib : Option Nat) (g st : Nat) :
    sample_ipc (ex_run sib g st) 1 (ex_thread 1125000 750000) = 6 := by
  show f32 (f32 ((u64_sub 750000 0 : ℕ) : ℚ) / f32 ((u64_sub 1125000 1000000 : ℕ) : ℚ)) = 6
  rw [u64_sub_ex_tsc, u64_sub_ex_six]
  norm_num [f32_125000, f32_750000, f32_six]

theorem ex_run_us (sib : Option Nat) (g st i : Nat) :
    sample_us ex_cfg (ex_run sib g st) 1 (ex_thread 1125000 i) = 125 / 2 := by
  show f32 (f32 ((u64_sub 1125000 1000000 : ℕ) : ℚ) / f32 ((2000 : ℕ) : ℚ)) = 125 / 2
  rw [u64_sub_ex_tsc]
  norm_num [f32_125000, f32_2000, f32_62_5]

theorem ex_run_run_us (sib : Option Nat) (g i : Nat) :
    sample_run_us ex_cfg (ex_run sib g 0) 1 (ex_thread 1125000 i) = 1125 / 2 := by
  show f32 (f32 (f32 ((1125000 : ℕ) : ℚ) - f32 ((0 : ℕ) : ℚ)) / f32 ((2000 : ℕ) : ℚ)) = 1125 / 2
  norm_num [f32_1125000, f32_zero, f32_2000, f32_562_5]

theorem ex_run_idle_us (sib : Option Nat) (g st i : Nat) :
    sample_idle_us ex_cfg (ex_run sib g st) (ex_thread 1125000 i) = 1125 / 2 := by
  show f32 (f32 (f32 ((1125000 : ℕ) : ℚ) - f32 ((0 : ℕ) : ℚ)) / f32 ((2000 : ℕ) : ℚ)) = 1125 / 2
  norm_num [f32_1125000, f32_zero, f32_2000, f32_562_5]

theorem ex_run_run_gap (sib : Option Nat) (g i : Nat) :
    sample_run_gap ex_cfg (ex_run sib g 0) 1 (ex_thread 1125000 i) = 500 := by
  rw [sample_run_gap, ex_run_run_us, ex_run_us]
  norm_num [f32_500]

theorem ex_run_idle_gap (sib : Option Nat) (g st i : Nat) :
    sample_idle_gap ex_cfg (ex_run sib g st) 1 (ex_thread 1125000 i) = 500 := by
  rw [sample_idle_gap, ex_run_idle_us, ex_run_us]
  norm_num [f32_500]

theorem ex_run_weight (sib : Option Nat) (g st i : Nat) :
    sample_weight ex_cfg (ex_run sib g st) 1 (ex_thread 1125000 i) = 1 / 16 := by
  rw [sample_weight, ex_run_us]
  have : MIN 100 (125 / 2) * ex_cfg.IAS_EWMA_FACTOR = 1 / 16 := by
    norm_num [MIN, ex_cfg]
  rw [this, d64_sixteenth]

theorem ex_run_gates (sib : Option Nat) (i : Nat) :
    ¬ (sample_run_gap ex_cfg (ex_run sib 0 0) 1 (ex_thread 1125000 i) < WARMUP_US ∨
        sample_idle_gap ex_cfg (ex_run sib 0 0) 1 (ex_thread 1125000 i) < WARMUP_US) := by
  rw [ex_run_run_gap, ex_run_idle_gap]
  norm_num [WARMUP_US]

/-- Witness of C11: the thread's cycle count is the recorded 1000000. -/
theorem poll_one_zero_delta_witness :
    ((ias_ht_poll_one ex_cfg (ex_run none 1 0) 1 (ex_thread 1000000 5)).heap 1).ht_unpaired_ipc =
      ((ex_run none 1 0).heap 1).ht_unpaired_ipc ∧
    ((ias_ht_poll_one ex_cfg (ex_run none 1 0) 1 (ex_thread 1000000 5)).heap 1).ht_last_gen =
      ((ex_run none 1 0).heap 1).ht_last_gen :=
  ⟨(poll_one_zero_delta ex_cfg (ex_run none 1 0) 1 (ex_thread 1000000 5) rfl 1).1,
   (poll_one_zero_delta ex_cfg (ex_run none 1 0) 1 (ex_thread 1000000 5) rfl 1).2.2.2⟩

/-- Witness of C12: a sample of 750000 instructions in 125000 cycles
(`ipc = 6.0`) leaves `ht_unpaired_ipc` at 4.0; a sample of 625000 instructions
in 125000 cycles (`ipc = 5.0`) is smoothed in. -/
theorem poll_one_implausible_ipc_witness :
    ((ias_ht_poll_one ex_cfg (ex_run none 0 0) 1 (ex_thread 1125000 750000)).heap 1).ht_unpaired_ipc
      = ((ex_run none 0 0).heap 1).ht_unpaired_ipc ∧
    ((ias_ht_poll_one ex_cfg (ex_run none 0 0) 1 (ex_thread 1125000 625000)).heap 1).ht_unpaired_ipc
      = ex_cfg.ias_ewma ((ex_run none 0 0).heap 1).ht_unpaired_ipc
          (sample_ipc (ex_run none 0 0) 1 (ex_thread 1125000 625000))
          (sample_weight ex_cfg (ex_run none 0 0) 1 (ex_thread 1125000 625000)) :=
  ⟨((poll_one_implausible_ipc ex_cfg (ex_run none 0 0) 1 (ex_thread 1125000 750000)).1
      (Or.inl (by rw [ex_run_ipc_six]; norm_num)) 1).1,
   (poll_one_implausible_ipc ex_cfg (ex_run none 0 0) 1 (ex_thread 1125000 625000)).2
      (by rw [ex_run_ipc_five]; norm_num) (by decide) rfl (ex_run_gates none 625000) rfl⟩

/-- Witness of C14: the core's generation counter is 1, the recorded tag 0. -/
theorem poll_one_gen_mismatch_witness :
    ((ias_ht_poll_one ex_cfg (ex_run none 1 0) 1 (ex_thread 1200000 200000)).heap 1).ht_last_gen
      (ex_thread 1200000 200000).core = (ex_run none 1 0).ias_gen (ex_thread 1200000 200000).core :=
  (poll_one_gen_mismatch ex_cfg (ex_run none 1 0) 1 (ex_thread 1200000 200000)
    (by decide) (by decide)).1

theorem max_ipc_of_bounds (s : IasState) (sd : Nat) :
    0 ≤ max_ipc_of s sd ∧ (s.heap sd).ht_unpaired_ipc ≤ max_ipc_of s sd ∧
    (∀ w ∈ s.tracked, (s.heap sd).ht_pairing_ipc (s.heap w).idx ≤ max_ipc_of s sd) ∧
    (max_ipc_of s sd = 0 ∨ max_ipc_of s sd = (s.heap sd).ht_unpaired_ipc ∨
      ∃ w ∈ s.tracked, max_ipc_of s sd = (s.heap sd).ht_pairing_ipc (s.heap w).idx) := by
  obtain ⟨h1, h2, h3⟩ :=
    foldl_MAX_spec (fun k => (s.heap sd).ht_pairing_ipc (s.heap k).idx) s.tracked 0
  have e : max_ipc_of s sd =
      max (s.tracked.foldl (fun m w => MAX m ((s.heap sd).ht_pairing_ipc (s.heap w).idx)) 0)
        (s.heap sd).ht_unpaired_ipc := by
    unfold max_ipc_of; rw [MAX_eq_max]
  refine ⟨?_, ?_, ?_, ?_⟩
  · rw [e]; exact le_trans h1 (le_max_left _ _)
  · rw [e]; exact le_max_right _ _
  · intro w hw
    rw [e]; exact le_trans (h2 w hw) (le_max_left _ _)
  · rcases max_choice
      (s.tracked.foldl (fun m w => MAX m ((s.heap sd).ht_pairing_ipc (s.heap w).idx)) 0)
      (s.heap sd).ht_unpaired_ipc with hc | hc
    · rcases h3 with h3 | ⟨w, hw, h3⟩
      · left; rw [e, hc, h3]
      · right; right; exact ⟨w, hw, by rw [e, hc, h3]⟩
    · right; left; rw [e, hc]

theorem detect_core_keeps_max (cfg : Config) (now_tsc : Nat) (st : IasState × List Request)
    (core : Nat) (a : Nat) :
    ((detect_core cfg now_tsc st core).1.heap a).ht_max_ipc = (st.1.heap a).ht_max_ipc := by
  rcases detect_core_cases cfg now_tsc st core with e | ⟨sd, b, _, _, _, _, _, e⟩ |
    ⟨sd, _, _, _, _, e⟩
  · rw [e]
  · rw [e]
    by_cases h : a = b
    · subst h; simp [IasState.set_ban, IasState.store]
    · rw [set_ban_heap_ne _ _ _ _ _ h]
  · rw [e]

theorem detect_fold_keeps_max (cfg : Config) (now_tsc : Nat) (l : List Nat) (a : Nat) :
    ∀ st : IasState × List Request,
      ((l.foldl (detect_core cfg now_tsc) st).1.heap a).ht_max_ipc = (st.1.heap a).ht_max_ipc := by
  induction l with
  | nil => intro st; rfl
  | cons c l ih =>
    intro st
    simp only [List.foldl]
    rw [ih, detect_core_keeps_max]

theorem sample_all_single (cfg : Config) (s : IasState) (sd : Nat) (th : Thread)
    (ht : s.tracked = [sd]) (hth : (s.heap sd).active_threads = [th]) :
    sample_all cfg s = ias_ht_poll_one cfg s sd th := by
  unfold sample_all
  rw [ht]
  simp only [List.foldl]
  rw [hth]
  simp only [List.foldl]

theorem poll_max_eq_refreshed (cfg : Config) (now_us now_tsc : Nat) (s : IasState) (a : Nat) :
    ((ias_ht_poll cfg now_us now_tsc s).1.heap a).ht_max_ipc =
      ((refresh_max_ipc (sample_all cfg s)).heap a).ht_max_ipc := by
  unfold ias_ht_poll ias_ht_detect_bad_pairing
  rw [detect_fold_keeps_max]

theorem ex_run_sample :
    sample_all ex_cfg (ex_run none 0 0) =
      (ex_run none 0 0).store 1 ((((ex_run none 0 0).heap 1).bookkept
        (ex_thread 1125000 125000)).set_unpaired (61 / 16)) := by
  have e := poll_one_unpaired_eq ex_cfg (ex_run none 0 0) 1 (ex_thread 1125000 125000)
    (by decide) rfl (by rw [ex_run_ipc]; norm_num) (ex_run_gates none 125000) rfl
  rw [ex_run_weight, ex_run_ipc] at e
  have v : ex_cfg.ias_ewma ((ex_run none 0 0).heap 1).ht_unpaired_ipc 1 (1 / 16) = 61 / 16 := by
    show (1 : ℚ) * (1 / 16) + 4 * (1 - 1 / 16) = 61 / 16
    norm_num
  rw [v] at e
  exact (sample_all_single ex_cfg (ex_run none 0 0) 1 (ex_thread 1125000 125000) rfl rfl).trans e

theorem ex_run_sample_max :
    ((refresh_max_ipc (sample_all ex_cfg (ex_run none 0 0))).heap 1).ht_max_ipc = 61 / 16 := by
  have hm : (1 : Nat) ∈ (sample_all ex_cfg (ex_run none 0 0)).tracked := by
    rw [(sample_all_frame ex_cfg (ex_run none 0 0)).1]
    simp [ex_run]
  rw [refreshed_max_ipc _ 1 hm, ex_run_sample]
  simp [max_ipc_of, IasState.store, IasData.set_unpaired, IasData.bookkept, ex_run,
    IasData.blank, MAX]
  norm_num

theorem ex_run_consistent : max_ipc_of (ex_run none 0 0) 1 = 4 := by
  simp [max_ipc_of, ex_run, IasData.blank, MAX]

theorem ex_run_poll_max :
    ((ias_ht_poll ex_cfg 0 7 (ex_run none 0 0)).1.heap 1).ht_max_ipc = 61 / 16 :=
  (poll_max_eq_refreshed ex_cfg 0 7 (ex_run none 0 0) 1).trans ex_run_sample_max

/-- C16 as stated fails: the example workload holds `max_ipc = 4.0`, which is
what the aggregator computes from its estimates (`unpaired_ipc = 4.0`); one
poll later, after a sample of `ipc = 1.0` over 62.5 microseconds has been
smoothed into `unpaired_ipc` with weight `62.5 * 0.001 = 0.0625`, the
aggregator leaves `max_ipc = 3.8125`. -/
theorem max_ipc_drops_after_sample :
    ((ex_run none 0 0).heap 1).ht_max_ipc = 4 ∧
    max_ipc_of (ex_run none 0 0) 1 = 4 ∧
    ((refresh_max_ipc (sample_all ex_cfg (ex_run none 0 0))).heap 1).ht_max_ipc = 61 / 16 ∧
    ((ias_ht_poll ex_cfg 0 7 (ex_run none 0 0)).1.heap 1).ht_max_ipc = 61 / 16 :=
  ⟨rfl, ex_run_consistent, ex_run_sample_max, ex_run_poll_max⟩

/-- C16, amended: `ht_max_ipc` is the maximum of the workload's current
estimates, recomputed from zero.  Between two runs of the aggregator (in
states `s` and `t`) it does not decrease provided that every workload tracked
in `s` is tracked in `t` with the same `idx` and that no estimate of the
workload has decreased. -/
theorem refresh_max_ipc_mono (s t : IasState) (sd : Nat)
    (hs : sd ∈ s.tracked) (ht : sd ∈ t.tracked)
    (htr : ∀ w ∈ s.tracked, w ∈ t.tracked ∧ (t.heap w).idx = (s.heap w).idx)
    (hu : (s.heap sd).ht_unpaired_ipc ≤ (t.heap sd).ht_unpaired_ipc)
    (hp : ∀ k, (s.heap sd).ht_pairing_ipc k ≤ (t.heap sd).ht_pairing_ipc k) :
    ((refresh_max_ipc s).heap sd).ht_max_ipc ≤ ((refresh_max_ipc t).heap sd).ht_max_ipc := by
  rw [refreshed_max_ipc s sd hs, refreshed_max_ipc t sd ht]
  obtain ⟨_, _, _, hc⟩ := max_ipc_of_bounds s sd
  obtain ⟨t0, tu, tp, _⟩ := max_ipc_of_bounds t sd
  rcases hc with hc | hc | ⟨w, hw, hc⟩
  · rw [hc]; exact t0
  · rw [hc]; exact le_trans hu tu
  · rw [hc]
    obtain ⟨hwt, hi⟩ := htr w hw
    have := tp w hwt
    rw [hi] at this
    exact le_trans (hp _) this

theorem ex_run_sample_five :
    ias_ht_poll_one ex_cfg (ex_run none 0 0) 1 (ex_thread 1125000 625000) =
      (ex_run none 0 0).store 1 ((((ex_run none 0 0).heap 1).bookkept
        (ex_thread 1125000 625000)).set_unpaired (65 / 16)) := by
  have e := poll_one_unpaired_eq ex_cfg (ex_run none 0 0) 1 (ex_thread 1125000 625000)
    (by decide) rfl (by rw [ex_run_ipc_five]; norm_num) (ex_run_gates none 625000) rfl
  rw [ex_run_weight, ex_run_ipc_five] at e
  have v : ex_cfg.ias_ewma ((ex_run none 0 0).heap 1).ht_unpaired_ipc 5 (1 / 16) = 65 / 16 := by
    show (5 : ℚ) * (1 / 16) + 4 * (1 - 1 / 16) = 65 / 16
    norm_num
  rw [v] at e
  exact e

/-- Witness of amended C16: the example state before and after a sample of
`ipc = 5.0`, which raises `unpaired_ipc` from 4.0 to 4.0625. -/
theorem refresh_max_ipc_mono_witness :
    ((refresh_max_ipc (ex_run none 0 0)).heap 1).ht_max_ipc ≤
      ((refresh_max_ipc
        (ias_ht_poll_one ex_cfg (ex_run none 0 0) 1 (ex_thread 1125000 625000))).heap 1).ht_max_ipc :=
  refresh_max_ipc_mono (ex_run none 0 0)
    (ias_ht_poll_one ex_cfg (ex_run none 0 0) 1 (ex_thread 1125000 625000)) 1
    (by simp [ex_run]) (by rw [poll_one_tracked]; simp [ex_run])
    (fun w hw => by
      rw [poll_one_tracked]
      refine ⟨hw, ?_⟩
      rw [ex_run_sample_five]
      by_cases h : w = 1
      · subst h; rw [store_heap_same]; rfl
      · rw [store_heap_ne _ _ _ _ h])
    (by rw [ex_run_sample_five, store_heap_same]
        show (4 : ℚ) ≤ 65 / 16
        norm_num)
    (fun k => by rw [ex_run_sample_five, store_heap_same]; exact le_refl _)

/-! ## The ratio the detector sees within a poll -/

theorem is_bad_pairing_eq_cur (cfg : Config) (s : IasState) (sd : Nat) (sib_sd : Option Nat) :
    is_bad_pairing cfg s sd sib_sd =
      (if cur_ipc s sd sib_sd > 1 / 1000 then FVal.div (cur_ipc s sd sib_sd) (s.heap sd).ht_max_ipc
        else FVal.fin 1).le (1 - cfg.IAS_HT_MAX_IPC_DEGRADE_RATIO) := by
  cases sib_sd <;> rfl

theorem cur_ipc_refresh (s : IasState) (sd : Nat) (sib_sd : Option Nat) :
    cur_ipc (refresh_max_ipc s) sd sib_sd = cur_ipc s sd sib_sd := by
  rw [refresh_max_ipc_eq]
  cases sib_sd <;> rfl

theorem cur_ipc_le_max_ipc_of (s : IasState) (sd : Nat) (sib_sd : Option Nat)
    (h : ∀ b, sib_sd = some b → b ∈ s.tracked) :
    cur_ipc s sd sib_sd ≤ max_ipc_of s sd := by
  obtain ⟨_, hu, hp, _⟩ := max_ipc_of_bounds s sd
  cases sib_sd with
  | none => exact hu
  | some b => exact hp b (h b rfl)

/-- C19: after the aggregator, for a core whose workload `sd` and whose
sibling's workload (if any) are tracked: when the current IPC is above the
`1e-3` floor, the refreshed `ht_max_ipc` is at least the current IPC and
positive, so the quotient is a finite number in `(0, 1]`, and it is the ratio
`is_bad_pairing` compares with the threshold.  With a positive degrade ratio
the pairing is bad only if `ht_unpaired_ipc` or some `ht_pairing_ipc` entry of
a tracked workload is strictly above the current IPC. -/
theorem refreshed_ratio_bounds (cfg : Config) (s : IasState) (core sd : Nat)
    (htr : ∀ c a, s.cores c = some a → a ∈ s.tracked)
    (hc : s.cores core = some sd)
    (hcur : cur_ipc (refresh_max_ipc s) sd
      ((refresh_max_ipc s).cores (cfg.sched_siblings core)) > 1 / 1000) :
    cur_ipc (refresh_max_ipc s) sd ((refresh_max_ipc s).cores (cfg.sched_siblings core)) ≤
      ((refresh_max_ipc s).heap sd).ht_max_ipc ∧
    0 < ((refresh_max_ipc s).heap sd).ht_max_ipc ∧
    FVal.div
        (cur_ipc (refresh_max_ipc s) sd ((refresh_max_ipc s).cores (cfg.sched_siblings core)))
        ((refresh_max_ipc s).heap sd).ht_max_ipc =
      FVal.fin
        (cur_ipc (refresh_max_ipc s) sd ((refresh_max_ipc s).cores (cfg.sched_siblings core)) /
          ((refresh_max_ipc s).heap sd).ht_max_ipc) ∧
    0 < cur_ipc (refresh_max_ipc s) sd ((refresh_max_ipc s).cores (cfg.sched_siblings core)) /
        ((refresh_max_ipc s).heap sd).ht_max_ipc ∧
    cur_ipc (refresh_max_ipc s) sd ((refresh_max_ipc s).cores (cfg.sched_siblings core)) /
        ((refresh_max_ipc s).heap sd).ht_max_ipc ≤ 1 ∧
    is_bad_pairing cfg (refresh_max_ipc s) sd
        ((refresh_max_ipc s).cores (cfg.sched_siblings core)) =
      decide
        (cur_ipc (refresh_max_ipc s) sd ((refresh_max_ipc s).cores (cfg.sched_siblings core)) /
          ((refresh_max_ipc s).heap sd).ht_max_ipc ≤ 1 - cfg.IAS_HT_MAX_IPC_DEGRADE_RATIO) ∧
    (0 < cfg.IAS_HT_MAX_IPC_DEGRADE_RATIO →
      is_bad_pairing cfg (refresh_max_ipc s) sd
        ((refresh_max_ipc s).cores (cfg.sched_siblings core)) = true →
      cur_ipc (refresh_max_ipc s) sd ((refresh_max_ipc s).cores (cfg.sched_siblings core)) <
          ((refresh_max_ipc s).heap sd).ht_unpaired_ipc ∨
        ∃ w ∈ (refresh_max_ipc s).tracked,
          cur_ipc (refresh_max_ipc s) sd ((refresh_max_ipc s).cores (cfg.sched_siblings core)) <
            ((refresh_max_ipc s).heap sd).ht_pairing_ipc ((refresh_max_ipc s).heap w).idx) := by
  have hsd : sd ∈ s.tracked := htr core sd hc
  have hco : (refresh_max_ipc s).cores = s.cores := by rw [refresh_max_ipc_eq]; rfl
  have htk : (refresh_max_ipc s).tracked = s.tracked := by rw [refresh_max_ipc_eq]; rfl
  have hu : ((refresh_max_ipc s).heap sd).ht_unpaired_ipc = (s.heap sd).ht_unpaired_ipc := by
    rw [refresh_max_ipc_eq]; rfl
  have hp : ((refresh_max_ipc s).heap sd).ht_pairing_ipc = (s.heap sd).ht_pairing_ipc := by
    rw [refresh_max_ipc_eq]; rfl
  have hi : ∀ w, ((refresh_max_ipc s).heap w).idx = (s.heap w).idx := by
    intro w; rw [refresh_max_ipc_eq]; rfl
  have hbad := is_bad_pairing_eq_cur cfg (refresh_max_ipc s) sd
    ((refresh_max_ipc s).cores (cfg.sched_siblings core))
  rw [if_pos hcur] at hbad
  rw [hbad, htk, hu, hp]
  simp only [hi]
  rw [hco, cur_ipc_refresh] at hcur
  rw [hco, cur_ipc_refresh, refreshed_max_ipc s sd hsd]
  have hle : cur_ipc s sd (s.cores (cfg.sched_siblings core)) ≤ max_ipc_of s sd :=
    cur_ipc_le_max_ipc_of s sd _ (fun b hb => htr _ b hb)
  have hcpos : 0 < cur_ipc s sd (s.cores (cfg.sched_siblings core)) :=
    lt_trans (by norm_num) hcur
  have hmpos : 0 < max_ipc_of s sd := lt_of_lt_of_le hcpos hle
  have hdiv : FVal.div (cur_ipc s sd (s.cores (cfg.sched_siblings core))) (max_ipc_of s sd) =
      FVal.fin (cur_ipc s sd (s.cores (cfg.sched_siblings core)) / max_ipc_of s sd) := by
    simp [FVal.div, ne_of_gt hmpos]
  refine ⟨hle, hmpos, hdiv, div_pos hcpos hmpos, (div_le_one hmpos).mpr hle, ?_, ?_⟩
  · rw [hdiv]; rfl
  · intro hD hb
    rw [hdiv] at hb
    simp only [FVal.le, decide_eq_true_eq] at hb
    have hlt1 : cur_ipc s sd (s.cores (cfg.sched_siblings core)) / max_ipc_of s sd < 1 := by
      linarith
    have hlt : cur_ipc s sd (s.cores (cfg.sched_siblings core)) < max_ipc_of s sd :=
      (div_lt_one hmpos).mp hlt1
    obtain ⟨_, _, _, hcases⟩ := max_ipc_of_bounds s sd
    rcases hcases with h0 | h1 | ⟨w, hw, h2⟩
    · rw [h0] at hmpos; exact absurd hmpos (lt_irrefl 0)
    · left; rw [← h1]; exact hlt
    · right; exact ⟨w, hw, by rw [← h2]; exact hlt⟩

/-- Witness of C19: the example workload alone on core 0 with
`unpaired_ipc = 4.0` and `pairing_ipc[2] = 5.0`. -/
theorem refreshed_ratio_bounds_witness :
    0 < ((refresh_max_ipc (ex_alone false 4 5)).heap 1).ht_max_ipc :=
  (refreshed_ratio_bounds ex_cfg (ex_alone false 4 5) 0 1
    (fun c a h => by
      by_cases hc : c = 0
      · simp [ex_alone, hc] at h; simp [ex_alone, ← h]
      · simp [ex_alone, hc] at h)
    rfl
    (by rw [ex_alone_refresh]
        show (4 : ℚ) > 1 / 1000
        norm_num)).2.1

/-! ## The timestamps of a poll -/

theorem set_ban_entry (s : IasState) (b k t a j : Nat) :
    ((s.set_ban b k t).heap a).ht_last_banned_tsc j =
      if a = b ∧ j = k then t else (s.heap a).ht_last_banned_tsc j := by
  by_cases h : a = b
  · subst h
    by_cases hj : j = k
    · subst hj; simp [IasState.set_ban, IasState.store]
    · simp [IasState.set_ban, IasState.store, Function.update_noteq hj, hj]
  · rw [set_ban_heap_ne s b k t a h]
    simp [h]

theorem detect_core_stamp (cfg : Config) (now_tsc : Nat) (s : IasState)
    (st : IasState × List Request) (core : Nat) (h : StampInv now_tsc s st) :
    StampInv now_tsc s (detect_core cfg now_tsc st core) := by
  obtain ⟨h1, h2⟩ := h
  rcases detect_core_cases cfg now_tsc st core with e | ⟨sd, b, _, _, _, _, _, e⟩ |
    ⟨sd, _, _, _, _, e⟩
  · rw [e]; exact ⟨h1, h2⟩
  · rw [e]
    refine ⟨?_, ?_⟩
    · intro r hr
      rcases List.mem_append.mp hr with hr | hr
      · exact h1 r hr
      · rw [List.mem_singleton.mp hr]
    · intro a j hne
      rw [set_ban_entry] at hne ⊢
      by_cases hc : a = b ∧ j = (st.1.heap sd).idx
      · rw [if_pos hc]
      · rw [if_neg hc] at hne ⊢
        exact h2 a j hne
  · rw [e]
    refine ⟨?_, h2⟩
    intro r hr
    rcases List.mem_append.mp hr with hr | hr
    · exact h1 r hr
    · rw [List.mem_singleton.mp hr]

theorem detect_fold_stamp (cfg : Config) (now_tsc : Nat) (s : IasState) (l : List Nat) :
    ∀ st : IasState × List Request, StampInv now_tsc s st →
      StampInv now_tsc s (l.foldl (detect_core cfg now_tsc) st) := by
  induction l with
  | nil => intro st h; exact h
  | cons c l ih =>
    intro st h
    exact ih _ (detect_core_stamp cfg now_tsc s st c h)

theorem poll_one_bans (cfg : Config) (s : IasState) (sd : Nat) (th : Thread) (a : Nat) :
    ((ias_ht_poll_one cfg s sd th).heap a).ht_last_banned_tsc = (s.heap a).ht_last_banned_tsc := by
  have key : ∀ r : IasData, r.ht_last_banned_tsc = (s.heap sd).ht_last_banned_tsc →
      ((s.store sd r).heap a).ht_last_banned_tsc = (s.heap a).ht_last_banned_tsc := by
    intro r hr
    by_cases h : a = sd
    · subst h; rw [store_heap_same]; exact hr
    · rw [store_heap_ne s sd a r h]
  rcases poll_one_cases cfg s sd th with ⟨_, e⟩ | ⟨_, _, e⟩ | ⟨_, _, _, e⟩ | ⟨_, _, _, _, e⟩ |
    ⟨_, _, _, _, _, e⟩ | ⟨w, _, _, _, _, _, _, e⟩ | ⟨w, _, _, _, _, _, _, e⟩
  all_goals rw [e]; exact key _ rfl

theorem poll_threads_bans (cfg : Config) (sd : Nat) (l : List Thread) (a : Nat) :
    ∀ st : IasState,
      ((l.foldl (fun st2 th => ias_ht_poll_one cfg st2 sd th) st).heap a).ht_last_banned_tsc =
        (st.heap a).ht_last_banned_tsc := by
  induction l with
  | nil => intro st; rfl
  | cons th l ih =>
    intro st
    simp only [List.foldl]
    rw [ih, poll_one_bans]

theorem poll_procs_bans (cfg : Config) (l : List Nat) (a : Nat) :
    ∀ st : IasState,
      ((l.foldl (fun st sd =>
          (st.heap sd).active_threads.foldl (fun st2 th => ias_ht_poll_one cfg st2 sd th) st)
          st).heap a).ht_last_banned_tsc = (st.heap a).ht_last_banned_tsc := by
  induction l with
  | nil => intro st; rfl
  | cons sd l ih =>
    intro st
    simp only [List.foldl]
    rw [ih, poll_threads_bans]

theorem before_detect_bans (cfg : Config) (s : IasState) (a : Nat) :
    ((refresh_max_ipc (sample_all cfg s)).heap a).ht_last_banned_tsc =
      (s.heap a).ht_last_banned_tsc := by
  have h1 : ((refresh_max_ipc (sample_all cfg s)).heap a).ht_last_banned_tsc =
      ((sample_all cfg s).heap a).ht_last_banned_tsc := by
    rw [refresh_max_ipc_eq]; rfl
  rw [h1]
  exact poll_procs_bans cfg s.tracked a s

/-- C20: the argument `now_us` has no influence on a poll; every request of
the poll carries the cycle-counter value `now_tsc` read at the start of the
detector pass, and every ban entry that the poll changed holds that same
value. -/
theorem poll_timestamp (cfg : Config) (now_tsc : Nat) (s : IasState) :
    (∀ u1 u2, ias_ht_poll cfg u1 now_tsc s = ias_ht_poll cfg u2 now_tsc s) ∧
    (∀ u, ∀ r ∈ (ias_ht_poll cfg u now_tsc s).2, r.now_tsc = now_tsc) ∧
    (∀ u a k, ((ias_ht_poll cfg u now_tsc s).1.heap a).ht_last_banned_tsc k ≠
        (s.heap a).ht_last_banned_tsc k →
      ((ias_ht_poll cfg u now_tsc s).1.heap a).ht_last_banned_tsc k = now_tsc) := by
  have h0 : StampInv now_tsc (refresh_max_ipc (sample_all cfg s))
      (refresh_max_ipc (sample_all cfg s), []) :=
    ⟨fun r hr => absurd hr (List.not_mem_nil r), fun a k hne => absurd rfl hne⟩
  obtain ⟨h1, h2⟩ := detect_fold_stamp cfg now_tsc _ cfg.allowed_cores _ h0
  refine ⟨fun _ _ => rfl, fun _ => h1, ?_⟩
  intro u a k hne
  apply h2 a k
  rw [before_detect_bans]
  exact hne

/-! ## Single precision at large counter values

The sampler's locals are `float`.  The theorems of this section evaluate the
embedding where the rounding shows: a counter difference above `2 ^ 24`, and
cycle counts near `10 ^ 15`, where `(float) cur_tsc` has a granularity of
`2 ^ 26` cycles. -/

theorem rne_of_near (q : ℚ) (n : ℤ) (h : |q - n| < 1 / 2) : rne q = n := by
  obtain ⟨h1, h2⟩ := abs_lt.mp h
  by_cases hq : (n : ℚ) ≤ q
  · have hf : ⌊q⌋ = n := Int.floor_eq_iff.mpr ⟨hq, by linarith⟩
    unfold rne
    rw [hf, if_pos h2]
  · have hq2 : q < n := not_le.mp hq
    have hf : ⌊q⌋ = n - 1 := Int.floor_eq_iff.mpr ⟨by push_cast; linarith, by push_cast; linarith⟩
    unfold rne
    rw [hf]
    have a1 : ¬ (q - ((n - 1 : ℤ) : ℚ) < 1 / 2) := by push_cast; linarith
    have a2 : (1 : ℚ) / 2 < q - ((n - 1 : ℤ) : ℚ) := by push_cast; linarith
    rw [if_neg a1, if_pos a2]
    omega

/-- The rounding of a value, from its binade and the nearest integer of its
scaled significand. -/
theorem round_to_eval (p : Nat) (x : ℚ) (e n : ℤ)
    (h1 : (2 : ℚ) ^ e ≤ |x|) (h2 : |x| < (2 : ℚ) ^ (e + 1))
    (hn : |x / (2 : ℚ) ^ (e - ((p : ℤ) - 1)) - n| < 1 / 2) :
    round_to p x = (n : ℚ) * (2 : ℚ) ^ (e - ((p : ℤ) - 1)) := by
  have hpos : 0 < |x| := lt_of_lt_of_le (two_zpow_pos e) h1
  have hne : x ≠ 0 := abs_pos.mp hpos
  unfold round_to
  rw [if_neg hne, log2_eq h1 h2, rne_of_near _ n hn]

theorem f32_50000001 : f32 50000001 = 50000000 := by
  have h := round_to_eval 24 50000001 25 12500000 (by norm_num) (by norm_num)
    (by norm_num [abs_lt])
  rw [f32, h]
  norm_num

theorem f32_10000000 : f32 10000000 = 10000000 :=
  round_to_exact 24 10000000 23 10000000 (by norm_num) (by norm_num) (by norm_num)

theorem u64_sub_ex_wide : u64_sub 11000000 1000000 = 10000000 := by
  norm_num [u64_sub]

theorem u64_sub_ex_odd : u64_sub 50000001 0 = 50000001 := by
  norm_num [u64_sub]

/-- A sample of 50000001 instructions in 10000000 cycles: the quotient of the
counter differences is above 5, but `(float) 50000001` is 50000000 and the
`ipc` the code computes is 5.0, which the plausibility test accepts. -/
theorem sample_ipc_rounds_the_instruction_delta :
    ((u64_sub 50000001 0 : ℕ) : ℚ) / ((u64_sub 11000000 1000000 : ℕ) : ℚ) > 5 ∧
    sample_ipc (ex_run none 0 0) 1 (ex_thread 11000000 50000001) = 5 ∧
    ¬ (sample_ipc (ex_run none 0 0) 1 (ex_thread 11000000 50000001) > 5 ∨
      sample_ipc (ex_run none 0 0) 1 (ex_thread 11000000 50000001) < 1 / 1000) := by
  have h : sample_ipc (ex_run none 0 0) 1 (ex_thread 11000000 50000001) = 5 := by
    show f32 (f32 ((u64_sub 50000001 0 : ℕ) : ℚ) / f32 ((u64_sub 11000000 1000000 : ℕ) : ℚ)) = 5
    rw [u64_sub_ex_wide, u64_sub_ex_odd]
    norm_num [f32_50000001, f32_10000000, f32_five]
  refine ⟨?_, h, ?_⟩
  · rw [u64_sub_ex_wide, u64_sub_ex_odd]
    norm_num
  · rw [h]
    norm_num

theorem f32_late_cur : f32 1000000020545537 = 1000000054099968 := by
  have h := round_to_eval 24 1000000020545537 49 14901162 (by norm_num) (by norm_num)
    (by norm_num [abs_lt])
  rw [f32, h]
  norm_num

theorem f32_late_start : f32 1000000020345536 = 999999986991104 := by
  have h := round_to_eval 24 1000000020345536 49 14901161 (by norm_num) (by norm_num)
    (by norm_num [abs_lt])
  rw [f32, h]
  norm_num

theorem f32_two_pow_26 : f32 67108864 = 67108864 :=
  round_to_exact 24 67108864 26 8388608 (by norm_num) (by norm_num) (by norm_num)

theorem f32_late_run_us : f32 (4194304 / 125) = 8589935 / 256 := by
  have h := round_to_eval 24 (4194304 / 125) 15 8589935 (by norm_num [abs_of_pos])
    (by norm_num [abs_of_pos]) (by norm_num [abs_lt])
  rw [f32, h]
  norm_num

theorem f32_200000 : f32 200000 = 200000 :=
  round_to_exact 24 200000 17 12800000 (by norm_num) (by norm_num) (by norm_num)

theorem f32_100 : f32 100 = 100 :=
  round_to_exact 24 100 6 13107200 (by norm_num) (by norm_num) (by norm_num)

theorem f32_neg_100 : f32 (-100) = -100 :=
  round_to_exact 24 (-100) 6 (-13107200) (by norm_num) (by norm_num) (by norm_num)

theorem f32_late_gap : f32 (8564335 / 256) = 8564335 / 256 :=
  round_to_exact 24 (8564335 / 256) 15 8564335 (by norm_num [abs_of_pos])
    (by norm_num [abs_of_pos]) (by norm_num)

theorem u64_sub_ex_late : u64_sub 1000000020545537 1000000020345537 = 200000 := by
  norm_num [u64_sub]

/-- A workload that started running 200001 cycles ago and was last sampled
200000 cycles ago, at a cycle count near `10 ^ 15` and 2000 cycles per
microsecond: the elapsed run time exceeds the sample's own time by 1 cycle
(0.0005 microseconds), but `(float) cur_tsc` and the start timestamp round to
values `2 ^ 26` cycles apart, and the `run_us - us` the code computes is about
33454.4, not below the warm-up floor. -/
theorem run_gap_near_start_at_late_cycle_count :
    (((1000000020545537 : ℚ) - 1000000020345536) -
      ((u64_sub 1000000020545537 1000000020345537 : ℕ) : ℚ)) / 2000 = 1 / 2000 ∧
    sample_run_gap ex_cfg (ex_late 1000000020345537 1000000020345536) 1
      (ex_thread 1000000020545537 200000) = 8564335 / 256 ∧
    ¬ (sample_run_gap ex_cfg (ex_late 1000000020345537 1000000020345536) 1
      (ex_thread 1000000020545537 200000) < WARMUP_US) := by
  have h : sample_run_gap ex_cfg (ex_late 1000000020345537 1000000020345536) 1
      (ex_thread 1000000020545537 200000) = 8564335 / 256 := by
    show f32 (f32 (f32 (f32 ((1000000020545537 : ℕ) : ℚ) - f32 ((1000000020345536 : ℕ) : ℚ)) /
        f32 ((2000 : ℕ) : ℚ)) -
      f32 (f32 ((u64_sub 1000000020545537 1000000020345537 : ℕ) : ℚ) / f32 ((2000 : ℕ) : ℚ))) =
      8564335 / 256
    rw [u64_sub_ex_late]
    norm_num [f32_late_cur, f32_late_start, f32_two_pow_26, f32_2000, f32_late_run_us,
      f32_200000, f32_100, f32_late_gap]
  refine ⟨?_, h, ?_⟩
  · rw [u64_sub_ex_late]
    norm_num
  · rw [h]
    norm_num [WARMUP_US]

theorem f32_late_cur_d : f32 1000000001000000 = 999999986991104 := by
  have h := round_to_eval 24 1000000001000000 49 14901161 (by norm_num) (by norm_num)
    (by norm_num [abs_lt])
  rw [f32, h]
  norm_num

theorem f32_late_start_d : f32 1000000000000000 = 999999986991104 := by
  have h := round_to_eval 24 1000000000000000 49 14901161 (by norm_num) (by norm_num)
    (by norm_num [abs_lt])
  rw [f32, h]
  norm_num

theorem u64_sub_ex_late_d : u64_sub 1000000001000000 1000000000800000 = 200000 := by
  norm_num [u64_sub]

/-- A workload that started running 1000000 cycles (500 microseconds) ago and
was last sampled 200000 cycles (100 microseconds) ago, at a cycle count near
`10 ^ 15`: the elapsed run time exceeds the sample's own time by 400
microseconds, but `(float) cur_tsc` and the start timestamp round to the same
value, and the `run_us - us` the code computes is -100, below the warm-up
floor. -/
theorem run_gap_long_run_at_late_cycle_count :
    (((1000000001000000 : ℚ) - 1000000000000000) -
      ((u64_sub 1000000001000000 1000000000800000 : ℕ) : ℚ)) / 2000 = 400 ∧
    sample_run_gap ex_cfg (ex_late 1000000000800000 1000000000000000) 1
      (ex_thread 1000000001000000 200000) = -100 ∧
    sample_run_gap ex_cfg (ex_late 1000000000800000 1000000000000000) 1
      (ex_thread 1000000001000000 200000) < WARMUP_US := by
  have h : sample_run_gap ex_cfg (ex_late 1000000000800000 1000000000000000) 1
      (ex_thread 1000000001000000 200000) = -100 := by
    show f32 (f32 (f32 (f32 ((1000000001000000 : ℕ) : ℚ) - f32 ((1000000000000000 : ℕ) : ℚ)) /
        f32 ((2000 : ℕ) : ℚ)) -
      f32 (f32 ((u64_sub 1000000001000000 1000000000800000 : ℕ) : ℚ) / f32 ((2000 : ℕ) : ℚ))) =
      -100
    rw [u64_sub_ex_late_d]
    norm_num [f32_late_cur_d, f32_late_start_d, f32_zero, f32_2000, f32_200000, f32_100,
      f32_neg_100]
  refine ⟨?_, h, ?_⟩
  · rw [u64_sub_ex_late_d]
    norm_num
  · rw [h]
    norm_num [WARMUP_US]

end IasHt
